import Mathlib

/-!
Shallow embedding of the eslint-plugin-tailwind-v4 rule
no-undefined-classes (src/rules/no-undefined-classes.js).

Class names, CSS texts and file paths are modelled as lists of characters
(`Tok`); the JS `Set` state is modelled as lists with membership; the JS
regular expressions of the rule are transliterated into executable matching
functions.  A backtracking matcher type `M` sends an input to the list of
possible unconsumed remainders, which makes alternation, option and
greedy/lazy repetition acceptance-equivalent to the JS `RegExp.test`
semantics.  The JS dot (which refuses line terminators) and the JS word,
digit and whitespace classes are reproduced exactly.
-/

/-- A string of the JS program: a list of characters. -/
abbrev Tok := List Char

/-- Embed a Lean string literal as a `Tok`. -/
def tok (s : String) : Tok := s.data

/-- Prefix test, recursing on the pattern first so that it evaluates on
inputs whose tail is symbolic. -/
def litPre : Tok → Tok → Bool
  | [], _ => true
  | _ :: _, [] => false
  | a :: as, b :: bs => a == b && litPre as bs

theorem litPre_eq_isPrefixOf : ∀ (a b : Tok), litPre a b = a.isPrefixOf b := by
  intro a
  induction a with
  | nil => intro b; cases b <;> rfl
  | cons x as ih =>
    intro b
    cases b with
    | nil => rfl
    | cons y bs =>
      show (x == y && litPre as bs) = ((x == y) && as.isPrefixOf bs)
      rw [ih]

theorem litPre_iff_pre {a b : Tok} : litPre a b = true ↔ a <+: b := by
  rw [litPre_eq_isPrefixOf]
  exact List.isPrefixOf_iff_prefix

/-- JS regex word class: letters, digits and underscore (ASCII). -/
def isWordC (c : Char) : Bool := c.isAlphanum || c == '_'

/-- JS regex class of word characters and the hyphen. -/
def isWordDash (c : Char) : Bool := isWordC c || c == '-'

/-- Line terminators refused by the JS regex dot. -/
def isNLC (c : Char) : Bool :=
  c == '\n' || c == '\r' || c == '\u2028' || c == '\u2029'

/-- Characters accepted by the JS regex dot. -/
def isDotC (c : Char) : Bool := !isNLC c

/-- JS regex whitespace class. -/
def isJsWS (c : Char) : Bool :=
  c == ' ' || c == '\t' || c == '\n' || c == '\r' || c == '\x0b' || c == '\x0c' ||
  c == '\u00a0' || c == '\u1680' || ('\u2000' ≤ c && c ≤ '\u200a') ||
  c == '\u2028' || c == '\u2029' || c == '\u202f' || c == '\u205f' ||
  c == '\u3000' || c == '\ufeff'

/-! Backtracking matchers. -/

/-- A matcher maps an input to the list of possible unconsumed remainders. -/
abbrev M := Tok → List Tok

/-- Match a literal string. -/
def mlit (s : String) : M := fun t =>
  if litPre s.data t then [t.drop s.data.length] else []

/-- Match one character satisfying a class. -/
def mch (p : Char → Bool) : M := fun t =>
  match t with
  | [] => []
  | c :: r => if p c then [r] else []

/-- Sequencing of matchers. -/
def mseq (a b : M) : M := fun t => (a t).flatMap b

/-- Alternation of matchers. -/
def malt (a b : M) : M := fun t => a t ++ b t

/-- Optional matcher (question mark). -/
def mopt (a : M) : M := fun t => a t ++ [t]

/-- One or more characters of a class, with every backtracking split. -/
def mplus (p : Char → Bool) : M := fun t =>
  (List.range (t.takeWhile p).length).map (fun i => t.drop (i + 1))

/-- Zero or more characters of a class, with every backtracking split. -/
def mstar (p : Char → Bool) : M := fun t => t :: mplus p t

/-- Alternation over a list of literal strings. -/
def mlits (ss : List String) : M := fun t => ss.flatMap (fun s => mlit s t)

/-- Empty matcher (epsilon). -/
def meps : M := fun t => [t]

/-- Sequencing of a list of matchers. -/
def mseqs (ms : List M) : M := ms.foldr mseq meps

/-- The pattern, anchored at both ends, matches the whole token. -/
def mfull (m : M) (t : Tok) : Bool := (m t).any List.isEmpty

/-- The pattern, anchored at the start only, matches a front segment. -/
def mhead (m : M) (t : Tok) : Bool := !(m t).isEmpty

/-! Arbitrary-value detection (function isArbitraryValue of the source). -/

/-- Scan for a close bracket where every earlier character is accepted by the
JS dot; used after the mandatory first character of a dot-plus group. -/
def seekClose : Tok → Bool
  | [] => false
  | c :: r => if c == ']' then true else if isNLC c then false else seekClose r

/-- Test of dot-plus followed by a close bracket, applied after an open
bracket. -/
def dotPlusClose : Tok → Bool
  | [] => false
  | c :: r => if isNLC c then false else seekClose r

/-- Unanchored test of open bracket, dot-plus, close bracket. -/
def hasBrkSeg : Tok → Bool
  | [] => false
  | c :: r => (c == '[' && dotPlusClose r) || hasBrkSeg r

/-- Scan for a close bracket directly followed by a colon, every earlier
character accepted by the JS dot (test of a lazy bracket variant head). -/
def seekCloseColon : Tok → Bool
  | [] => false
  | c :: r =>
    if c == ']' && r.head? == some ':' then true
    else if isNLC c then false
    else seekCloseColon r

/-- Test of a head-anchored bracketed variant: the literal head, lazy dot-star,
close bracket, colon. -/
def brkVariantHead (h : String) (t : Tok) : Bool :=
  litPre h.data t && seekCloseColon (t.drop h.data.length)

/-- Function isArbitraryValue of the source: the token contains a bracketed
segment and is not itself one of the recognized bracket-prefixed variants. -/
def isArbitraryValue (t : Tok) : Bool :=
  hasBrkSeg t &&
  !(brkVariantHead "[&" t) &&
  !(brkVariantHead "data-[" t) &&
  !(brkVariantHead "aria-[" t) &&
  !(brkVariantHead "supports-[" t)

/-! Variant stripping (function getBaseClass of the source). -/

/-- Strip one leading important marker, as the source does with a startsWith
test and substring. -/
def stripBang (t : Tok) : Tok :=
  match t with
  | '!' :: r => r
  | _ => t

/-- One entry of the prefixes table of getBaseClass: a literal colon-terminated
string, a bracketed variant with a lazy body, or the slashed group pattern. -/
inductive PPat where
  | lit (s : String)
  | brk (head : String)
  | gslash
deriving Repr

/-- Strip the lazy bracketed-variant body: the shortest run of JS-dot
characters followed by a close bracket and a colon; returns the remainder
after the colon. -/
def lazyBrkDrop : Tok → Option Tok
  | [] => none
  | c :: r =>
    if c == ']' && r.head? == some ':' then some r.tail
    else if isNLC c then none
    else lazyBrkDrop r

/-- Strip the slashed group variant: literal group-, a nonempty word-dash run,
a slash, a nonempty word-dash run, a colon. -/
def gslashDrop (t : Tok) : Option Tok :=
  if litPre (tok "group-") t then
    if ((t.drop 6).takeWhile isWordDash).isEmpty then none
    else
      match (t.drop 6).dropWhile isWordDash with
      | '/' :: r2 =>
        if (r2.takeWhile isWordDash).isEmpty then none
        else
          match r2.dropWhile isWordDash with
          | ':' :: r4 => some r4
          | _ => none
      | _ => none
  else none

/-- Apply one prefix pattern at the head of a token, returning the remainder
when the pattern matches. -/
def applyPP : PPat → Tok → Option Tok
  | .lit s, t => if litPre s.data t then some (t.drop s.data.length) else none
  | .brk h, t => if litPre h.data t then lazyBrkDrop (t.drop h.data.length) else none
  | .gslash, t => gslashDrop t

/-- Literal entries of the prefixes table of getBaseClass before the
group-has bracket pattern, in source order. -/
def ppatLitsA : List String := [
  "sm:", "md:", "lg:", "xl:", "2xl:",
  "hover:", "focus:", "focus-within:", "focus-visible:", "active:", "visited:", "target:",
  "first:", "last:", "only:", "odd:", "even:", "first-of-type:", "last-of-type:",
  "only-of-type:", "empty:", "disabled:", "enabled:", "checked:", "indeterminate:",
  "default:", "required:", "valid:", "invalid:", "in-range:", "out-of-range:",
  "placeholder-shown:", "autofill:", "read-only:",
  "first-letter:", "first-line:", "selection:", "marker:", "placeholder:", "file:",
  "group-hover:", "group-focus:", "group-active:", "group-focus-within:",
  "group-focus-visible:",
  "group-visited:", "group-target:", "group-first:", "group-last:", "group-only:",
  "group-odd:", "group-even:", "group-first-of-type:", "group-last-of-type:",
  "group-only-of-type:", "group-empty:", "group-disabled:", "group-enabled:",
  "group-checked:", "group-indeterminate:", "group-default:", "group-required:",
  "group-valid:", "group-invalid:", "group-in-range:", "group-out-of-range:",
  "group-placeholder-shown:", "group-autofill:", "group-read-only:"]

/-- Literal entries between the group-has bracket pattern and the slashed
group pattern. -/
def ppatLitsB : List String := [
  "group-has-hover:", "group-has-focus:", "group-has-active:",
  "group-has-disabled:", "group-has-checked:", "group-has-selected:",
  "group-has-valid:", "group-has-invalid:", "group-has-required:",
  "group-has-optional:"]

/-- Literal entries between the slashed group pattern and the peer-has
bracket pattern. -/
def ppatLitsC : List String := [
  "peer-hover:", "peer-focus:", "peer-active:", "peer-focus-within:",
  "peer-focus-visible:",
  "peer-visited:", "peer-target:", "peer-first:", "peer-last:", "peer-only:",
  "peer-odd:", "peer-even:", "peer-first-of-type:", "peer-last-of-type:",
  "peer-only-of-type:", "peer-empty:", "peer-disabled:", "peer-enabled:",
  "peer-checked:", "peer-indeterminate:", "peer-default:", "peer-required:",
  "peer-valid:", "peer-invalid:", "peer-in-range:", "peer-out-of-range:",
  "peer-placeholder-shown:", "peer-autofill:", "peer-read-only:"]

/-- Literal entries between the peer-has bracket pattern and the supports
bracket pattern. -/
def ppatLitsD : List String := [
  "peer-has-hover:", "peer-has-focus:", "peer-has-active:",
  "peer-has-disabled:", "peer-has-checked:", "peer-has-selected:",
  "peer-has-valid:", "peer-has-invalid:", "peer-has-required:",
  "peer-has-optional:",
  "dark:", "light:",
  "motion-safe:", "motion-reduce:", "contrast-more:", "contrast-less:",
  "portrait:", "landscape:",
  "print:"]

/-- The prefixes table of getBaseClass, in source order. -/
def ppats : List PPat :=
  ppatLitsA.map PPat.lit ++
  [PPat.brk "group-has-["] ++
  ppatLitsB.map PPat.lit ++
  [PPat.gslash] ++
  ppatLitsC.map PPat.lit ++
  [PPat.brk "peer-has-["] ++
  ppatLitsD.map PPat.lit ++
  [PPat.brk "supports-[", PPat.brk "data-[", PPat.brk "aria-[", PPat.brk "[&"]

/-- One pass of the prefix loop of getBaseClass: the first prefix of the table
that matches is stripped. -/
def stripVariantOnce (t : Tok) : Option Tok := ppats.findSome? (fun p => applyPP p t)

/-- Fuel-bounded iteration of prefix stripping; every successful strip removes
at least one character, so fuel equal to the length of the token suffices and
the function computes the limit of the source's while loop. -/
def stripRun : Nat → Tok → Tok
  | 0, t => t
  | n + 1, t =>
    match stripVariantOnce t with
    | some r => stripRun n r
    | none => t

/-- Iterated prefix stripping, as the while loop of getBaseClass. -/
def stripAll (t : Tok) : Tok := stripRun t.length t

/-- Function getBaseClass of the source: strip one leading important marker,
then iteratively strip recognized variant prefixes; return the result when it
differs from the original token, else none. -/
def getBaseClass (t : Tok) : Option Tok :=
  if stripAll (stripBang t) == t then none else some (stripAll (stripBang t))

example : stripVariantOnce (tok "dark:flex") = some (tok "flex") := by decide
example : getBaseClass (tok "dark:hover:bg-primary") = some (tok "bg-primary") := by decide
example : getBaseClass (tok "!flex") = some (tok "flex") := by decide
example : getBaseClass (tok "flex") = none := by decide
example : getBaseClass (tok "group-has-[p]:m-4") = some (tok "m-4") := by decide
example : getBaseClass (tok "group-a/b:m-4") = some (tok "m-4") := by decide
example : isArbitraryValue (tok "bg-[#ff0000]") = true := by decide
example : isArbitraryValue (tok "data-[x]:flex") = false := by decide
example : isArbitraryValue (tok "supports-[grid]:bg-[red]") = false := by decide

/-! The Tailwind pattern table (function isTailwindUtility of the source).
    Shared alternation lists, then the patterns in source order, grouped into
    chunk functions. -/

/-- Digits, an optional dot, digits (the numeric scale form of the source
patterns). -/
def mnum : M := mseqs [mplus Char.isDigit, mopt (mch (· == '.')), mstar Char.isDigit]

/-- One or more digits. -/
def mint : M := mplus Char.isDigit

/-- Digits, a slash, digits. -/
def mfrac : M := mseqs [mint, mch (· == '/'), mint]

/-- One or more word characters. -/
def mword : M := mplus isWordC

/-- One or more word or hyphen characters. -/
def mwd : M := mplus isWordDash

/-- Default palette color names. -/
def colorNames : List String := ["slate", "gray", "zinc", "neutral", "stone", "red",
  "orange", "amber", "yellow", "lime", "green", "emerald", "teal", "cyan", "sky",
  "blue", "indigo", "violet", "purple", "fuchsia", "pink", "rose"]

/-- Default palette shade names. -/
def shadeNames : List String := ["50", "100", "200", "300", "400", "500", "600",
  "700", "800", "900", "950"]

/-- Color-bearing property heads. -/
def colorProps : List String := ["text", "bg", "border", "decoration", "outline",
  "ring", "ring-offset", "shadow", "accent", "caret", "fill", "stroke"]

/-- Special color keywords. -/
def specialColors : List String := ["inherit", "current", "transparent", "black", "white"]

/-- Default font size names. -/
def sizeNames : List String := ["xs", "sm", "base", "lg", "xl", "2xl", "3xl", "4xl",
  "5xl", "6xl", "7xl", "8xl", "9xl"]

/-- Default font weight names. -/
def weightNames : List String := ["thin", "extralight", "light", "normal", "medium",
  "semibold", "bold", "extrabold", "black"]

/-- Spacing property heads. -/
def spacingPres : List String := ["p", "m", "px", "py", "pt", "pr", "pb", "pl",
  "mx", "my", "mt", "mr", "mb", "ml"]

/-- Directional and logical border sides. -/
def borderDirs : List String := ["t", "r", "b", "l", "x", "y", "s", "e", "is", "ie",
  "bs", "be"]

/-- Radius scale suffixes. -/
def roundSufs : List String := ["-none", "-sm", "-md", "-lg", "-xl", "-2xl", "-3xl", "-full"]

/-- Shadow scale suffixes. -/
def shadowSufs : List String := ["-none", "-sm", "-md", "-lg", "-xl", "-2xl", "-3xl", "-inner"]

/-- Filter scale suffixes. -/
def filterSufs : List String := ["-none", "-xs", "-sm", "-md", "-lg", "-xl", "-2xl", "-3xl"]

/-- Cursor keywords. -/
def cursorNames : List String := ["auto", "default", "pointer", "wait", "text", "move",
  "help", "not-allowed", "none", "context-menu", "progress", "cell", "crosshair",
  "vertical-text", "alias", "copy", "no-drop", "grab", "grabbing", "all-scroll",
  "col-resize", "row-resize", "n-resize", "e-resize", "s-resize", "w-resize",
  "ne-resize", "nw-resize", "se-resize", "sw-resize", "ew-resize", "ns-resize",
  "nesw-resize", "nwse-resize", "zoom-in", "zoom-out"]

/-- State pseudo-class names of the state variant pattern. -/
def stateNames : List String := ["hover", "focus", "focus-within", "focus-visible",
  "active", "visited", "target", "first", "last", "only", "odd", "even",
  "first-of-type", "last-of-type", "only-of-type", "empty", "disabled", "enabled",
  "checked", "indeterminate", "default", "required", "valid", "invalid", "in-range",
  "out-of-range", "placeholder-shown", "autofill", "read-only"]

/-- Pseudo-element names of the pseudo-element variant pattern. -/
def pseudoElems : List String := ["first-letter", "first-line", "selection", "marker",
  "placeholder", "file"]

/-- Group state variant names, in source order. -/
def groupStates : List String := ["group-hover", "group-focus", "group-active",
  "group-focus-within", "group-focus-visible", "group-visited", "group-target",
  "group-first", "group-last", "group-only", "group-odd", "group-even",
  "group-first-of-type", "group-last-of-type", "group-only-of-type", "group-empty",
  "group-disabled", "group-enabled", "group-checked", "group-indeterminate",
  "group-default", "group-required", "group-valid", "group-invalid", "group-in-range",
  "group-out-of-range", "group-placeholder-shown", "group-autofill", "group-read-only"]

/-- Group-has state variant names. -/
def groupHasStates : List String := ["group-has-hover", "group-has-focus",
  "group-has-active", "group-has-disabled", "group-has-checked", "group-has-selected",
  "group-has-valid", "group-has-invalid", "group-has-required", "group-has-optional"]

/-- Peer state variant names, in source order. -/
def peerStates : List String := ["peer-hover", "peer-focus", "peer-active",
  "peer-focus-within", "peer-focus-visible", "peer-visited", "peer-target",
  "peer-first", "peer-last", "peer-only", "peer-odd", "peer-even",
  "peer-first-of-type", "peer-last-of-type", "peer-only-of-type", "peer-empty",
  "peer-disabled", "peer-enabled", "peer-checked", "peer-indeterminate",
  "peer-default", "peer-required", "peer-valid", "peer-invalid", "peer-in-range",
  "peer-out-of-range", "peer-placeholder-shown", "peer-autofill", "peer-read-only"]

/-- Peer-has state variant names. -/
def peerHasStates : List String := ["peer-has-hover", "peer-has-focus",
  "peer-has-active", "peer-has-disabled", "peer-has-checked", "peer-has-selected",
  "peer-has-valid", "peer-has-invalid", "peer-has-required", "peer-has-optional"]

/-- Container query, layout, aspect ratio, group and peer patterns. -/
def twA (c : Tok) : Bool :=
  mfull (mlit "@container") c ||
  mfull (mseqs [mch (· == '@'), mlits ["xs", "sm", "md", "lg", "xl", "2xl", "3xl",
    "4xl", "5xl", "6xl", "7xl"], mch (· == '/'), mplus isDotC]) c ||
  mfull (mseqs [mlit "@container-", mplus isDotC, mch (· == '/'), mplus isDotC]) c ||
  mfull (mlits ["container", "block", "inline-block", "inline", "flex", "inline-flex",
    "table", "inline-table", "table-caption", "table-cell", "table-column",
    "table-column-group", "table-footer-group", "table-header-group",
    "table-row-group", "table-row", "flow-root", "grid", "inline-grid", "contents",
    "list-item", "hidden"]) c ||
  mfull (mseq (mlit "aspect-") (malt (mlits ["square", "video", "auto"]) mfrac)) c ||
  mfull (mlits ["group", "peer"]) c ||
  mfull (mseq (mlit "group/") mwd) c ||
  mfull (mseq (mlit "peer/") mwd) c

/-- Flexbox patterns. -/
def twB (c : Tok) : Bool :=
  mfull (mseqs [mlit "flex-", mlits ["row", "col", "wrap", "nowrap", "1", "auto",
    "initial", "none"], mopt (mlit "-reverse")]) c ||
  mfull (mseq (mlit "flex-") (malt mfrac mint)) c ||
  mfull (mlits ["grow", "grow-0", "shrink", "shrink-0"]) c ||
  mfull (mseqs [mlit "flex-", mlits ["grow", "shrink"], mopt (mlit "-0")]) c ||
  mfull (mseqs [mlits ["items", "justify", "content", "self"], mlit "-",
    mlits ["start", "end", "center", "stretch", "between", "around", "evenly",
      "baseline", "auto"]]) c ||
  mfull (mseqs [mlits ["place-content", "place-items", "place-self"], mlit "-",
    mlits ["start", "end", "center", "stretch", "between", "around", "evenly",
      "baseline", "auto"]]) c

/-- Logical property and spacing patterns. -/
def twC (c : Tok) : Bool :=
  mfull (mseqs [mlits ["m", "p"], mlits ["s", "e", "is", "ie", "bs", "be"], mlit "-",
    malt mnum (mlits ["px", "auto"])]) c ||
  mfull (mseqs [mlit "border-", mlits ["s", "e", "is", "ie", "bs", "be"],
    mopt (mseq (mlit "-") mint)]) c ||
  mfull (mseqs [mlit "rounded-", mlits ["s", "e", "ss", "se", "ee", "es"],
    mopt (mlits roundSufs)]) c ||
  mfull (mseqs [mlits spacingPres, mlit "-", malt mnum (mlits ["px", "auto"])]) c ||
  mfull (mseqs [mlit "gap", mopt (mlits ["-x", "-y"]), mlit "-",
    malt mnum (mlit "px")]) c ||
  mfull (mseqs [mlit "space-", mlits ["x", "y"], mlit "-",
    malt mnum (mlits ["px", "reverse"])]) c

/-- Sizing patterns. -/
def twD (c : Tok) : Bool :=
  mfull (mseqs [mlits ["w", "h"], mlit "-", mlits ["dvh", "lvh", "svh", "dvw",
    "lvw", "svw"]]) c ||
  mfull (mseqs [mlits ["min-w", "min-h", "max-w", "max-h"], mlit "-",
    malt (mlits ["0", "none", "full", "min", "max", "fit", "prose"])
      (mseq (mlit "screen-") (mlits ["sm", "md", "lg", "xl", "2xl"]))]) c ||
  mfull (mseqs [mlits ["min-w", "min-h", "max-w", "max-h"], mlit "-", mfrac]) c ||
  mfull (mseqs [mlit "size-", malt mnum (mlits ["px", "auto", "full", "screen",
    "min", "max", "fit"])]) c ||
  mfull (mseqs [mlits ["w", "h", "min-w", "min-h", "max-w", "max-h"], mlit "-",
    malt (mlits ["0", "px"]) (malt mnum (mlits ["auto", "full", "screen", "min",
      "max", "fit"]))]) c ||
  mfull (mseqs [mlits ["w", "h"], mlit "-", mfrac]) c

/-- Typography patterns. -/
def twE (c : Tok) : Bool :=
  mfull (mseq (mlit "text-") (mlits sizeNames)) c ||
  mfull (mseq (mlit "font-") (mlits weightNames)) c ||
  mfull (mseq (mlit "font-") (mlits ["sans", "serif", "mono"])) c ||
  mfull (mseq (mlit "text-") (mlits ["left", "center", "right", "justify", "start",
    "end"])) c ||
  mfull (mlits ["uppercase", "lowercase", "capitalize", "normal-case"]) c ||
  mfull (mlits ["italic", "not-italic"]) c ||
  mfull (mlits ["underline", "overline", "line-through", "no-underline"]) c ||
  mfull (mseq (mlit "decoration-") (malt (mlits ["slice", "clone", "auto",
    "from-font"]) (malt mint (mlits ["double", "dotted", "dashed", "wavy",
    "solid"])))) c ||
  mfull (mseq (mlit "underline-offset-") (malt (mlit "auto") mint)) c ||
  mfull (mseq (mlit "leading-") (malt (mlits ["none", "tight", "snug", "normal",
    "relaxed", "loose"]) mnum)) c ||
  mfull (mseq (mlit "tracking-") (mlits ["tighter", "tight", "normal", "wide",
    "wider", "widest"])) c ||
  mfull (mseq (mlit "indent-") (malt mnum (mlit "px"))) c ||
  mfull (mlits ["align-baseline", "align-top", "align-middle", "align-bottom",
    "align-text-top", "align-text-bottom", "align-super", "align-sub"]) c

/-- Text wrapping and whitespace patterns. -/
def twF (c : Tok) : Bool :=
  mfull (mseq (mlit "text-") (mlits ["wrap", "nowrap", "balance", "pretty",
    "ellipsis", "clip"])) c ||
  mfull (mseq (mlit "whitespace-") (mlits ["normal", "nowrap", "pre", "pre-line",
    "pre-wrap", "break-spaces"])) c ||
  mfull (mlits ["break-normal", "break-words", "break-all", "break-keep"]) c ||
  mfull (mseq (mlit "hyphens-") (mlits ["none", "manual", "auto"])) c ||
  mfull (mseq (mlit "text-overflow-") (mlits ["ellipsis", "clip"])) c ||
  mfull (mseq (mlit "line-clamp-") (malt mint (mlit "none"))) c

/-- Color patterns. -/
def twG (c : Tok) : Bool :=
  mfull (mseqs [mlits colorProps, mlit "-", mlits specialColors]) c ||
  mfull (mseqs [mlits colorProps, mlit "-", mlits colorNames, mlit "-",
    mlits shadeNames]) c ||
  mfull (mseqs [mlit "border-", mlits borderDirs, mlit "-", mlits specialColors]) c ||
  mfull (mseqs [mlit "border-", mlits borderDirs, mlit "-", mlits colorNames,
    mlit "-", mlits shadeNames]) c ||
  mfull (mseqs [mlit "border-", mlits borderDirs, mlit "-", mwd]) c ||
  mfull (mseq (mlit "divide-") mwd) c ||
  mfull (mseqs [mlits colorProps, mlit "-", mword, mopt (mseq (mlit "-") mint),
    mch (· == '/'), mint]) c ||
  mfull (mseqs [mlits colorProps, mlit "-", mlits ["current", "transparent",
    "inherit", "black", "white"], mch (· == '/'), mint]) c ||
  mfull (mseqs [mlits colorProps, mlit "-", mword, mlit "-", mint,
    mch (· == '/'), mint]) c

/-- Background and gradient patterns. -/
def twH (c : Tok) : Bool :=
  mfull (mseq (mlit "bg-") (mlits ["fixed", "local", "scroll"])) c ||
  mfull (mseq (mlit "bg-") (mlits ["auto", "cover", "contain"])) c ||
  mfull (mseq (mlit "bg-") (mlits ["center", "top", "right", "bottom", "left",
    "right-top", "right-bottom", "left-top", "left-bottom"])) c ||
  mfull (mseq (mlit "bg-") (mlits ["repeat", "no-repeat", "repeat-x", "repeat-y",
    "repeat-round", "repeat-space"])) c ||
  mfull (mseq (mlit "bg-origin-") (mlits ["border", "padding", "content"])) c ||
  mfull (mseq (mlit "bg-clip-") (mlits ["border", "padding", "content", "text"])) c ||
  mfull (mseq (mlit "bg-gradient-to-") (mlits ["t", "tr", "r", "br", "b", "bl",
    "l", "tl"])) c ||
  mfull (mseq (mlit "bg-gradient-") (mlits ["conic", "radial", "linear"])) c ||
  mfull (mseq (mlit "bg-linear-to-") (mlits ["t", "tr", "r", "br", "b", "bl",
    "l", "tl"])) c ||
  mfull (mseqs [mlit "bg-", mlits ["linear", "radial", "conic"], mlit "-gradient"]) c ||
  mfull (mseqs [mlits ["from", "via", "to"], mlit "-", mlits specialColors]) c ||
  mfull (mseqs [mlits ["from", "via", "to"], mlit "-", mlits colorNames, mlit "-",
    mlits shadeNames]) c ||
  mfull (mseqs [mlits ["from", "via", "to"], mlit "-", mlits specialColors,
    mch (· == '/'), mint]) c ||
  mfull (mseqs [mlits ["from", "via", "to"], mlit "-", mlits colorNames, mlit "-",
    mlits shadeNames, mch (· == '/'), mint]) c ||
  mfull (mseqs [mlits ["from", "via", "to"], mlit "-", mwd]) c ||
  mfull (mseqs [mlits ["from", "via", "to"], mlit "-", mwd, mch (· == '/'), mint]) c

/-- Border patterns. -/
def twI (c : Tok) : Bool :=
  mfull (mlit "border") c ||
  mfull (mseq (mlit "border-") (malt mnum (mlit "px"))) c ||
  mfull (mseq (mlit "border-") (mlits ["x", "y", "s", "e", "t", "r", "b", "l"])) c ||
  mfull (mseqs [mlit "border-", mlits ["x", "y", "s", "e", "t", "r", "b", "l"],
    mlit "-", malt mnum (mlit "px")]) c ||
  mfull (mseq (mlit "border-") (mlits ["solid", "dashed", "dotted", "double",
    "hidden", "none"])) c ||
  mfull (mseqs [mlits ["divide-x", "divide-y"], mopt (malt (mseq (mlit "-") mint)
    (mlit "-reverse"))]) c ||
  mfull (mseq (mlit "divide-") (mlits ["solid", "dashed", "dotted", "double",
    "none"])) c ||
  mfull (mseqs [mlit "outline", mopt (malt (mseq (mlit "-") mint)
    (mlits ["-none", "-dashed", "-dotted", "-double", "-hidden"]))]) c ||
  mfull (mseq (mlit "outline-offset-") mint) c ||
  mfull (mseqs [mlit "ring", mopt (malt (mseq (mlit "-") mint) (mlit "-inset"))]) c ||
  mfull (mseq (mlit "ring-offset-") mint) c ||
  mfull (mseqs [mlit "rounded", mopt (mlits roundSufs)]) c ||
  mfull (mseqs [mlit "rounded-", mlits ["s", "e", "t", "r", "b", "l", "ss", "se",
    "ee", "es", "tl", "tr", "br", "bl"], mopt (mlits roundSufs)]) c

/-- Effect and filter patterns. -/
def twJ (c : Tok) : Bool :=
  mfull (mseqs [mlit "shadow", mopt (mlits shadowSufs)]) c ||
  mfull (mseqs [mlit "shadow-", mword, mlit "-", mint,
    mopt (mseq (mch (· == '/')) mint)]) c ||
  mfull (mseq (mlit "opacity-") mint) c ||
  mfull (mseq (mlit "mix-blend-") (mlits ["normal", "multiply", "screen", "overlay",
    "darken", "lighten", "color-dodge", "color-burn", "hard-light", "soft-light",
    "difference", "exclusion", "hue", "saturation", "color", "luminosity",
    "plus-darker", "plus-lighter"])) c ||
  mfull (mseq (mlit "bg-blend-") (mlits ["normal", "multiply", "screen", "overlay",
    "darken", "lighten", "color-dodge", "color-burn", "hard-light", "soft-light",
    "difference", "exclusion", "hue", "saturation", "color", "luminosity"])) c ||
  mfull (mseqs [mlits ["blur", "brightness", "contrast", "drop-shadow", "grayscale",
    "hue-rotate", "invert", "saturate", "sepia"], mopt (mlits filterSufs)]) c ||
  mfull (mseqs [mlit "backdrop-", mlits ["blur", "brightness", "contrast",
    "grayscale", "hue-rotate", "invert", "opacity", "saturate", "sepia"],
    mopt (mlits filterSufs)]) c

/-- Table, animation and transform patterns. -/
def twK (c : Tok) : Bool :=
  mfull (mlits ["border-collapse", "border-separate"]) c ||
  mfull (mlits ["table-auto", "table-fixed"]) c ||
  mfull (mseq (mlit "caption-") (mlits ["top", "bottom"])) c ||
  mfull (mseq (mlit "animate-") (mlits ["none", "spin", "ping", "pulse",
    "bounce"])) c ||
  mfull (mseq (mlit "animate-") mwd) c ||
  mfull (mlits ["transform", "transform-cpu", "transform-gpu", "transform-none"]) c ||
  mfull (mseqs [mopt (mch (· == '-')), mlit "scale", mopt (malt
    (mseq (mlit "-") mint) (malt (mseq (mlit "-x-") mint)
    (mseq (mlit "-y-") mint)))]) c ||
  mfull (mseqs [mopt (mch (· == '-')), mlit "rotate-", mint]) c ||
  mfull (mseqs [mopt (mch (· == '-')), mlit "translate-", mlits ["x", "y"],
    mlit "-", malt mnum (malt (mlits ["px", "full"]) mfrac)]) c ||
  mfull (mseqs [mopt (mch (· == '-')), mlit "skew-", mlits ["x", "y"], mlit "-",
    mint]) c ||
  mfull (mseq (mlit "origin-") (mlits ["center", "top", "top-right", "right",
    "bottom-right", "bottom", "bottom-left", "left", "top-left"])) c

/-- Transition and positioning patterns. -/
def twL (c : Tok) : Bool :=
  mfull (mseqs [mlit "transition", mopt (mlits ["-none", "-all", "-colors",
    "-opacity", "-shadow", "-transform"])]) c ||
  mfull (mseq (mlit "duration-") mint) c ||
  mfull (mseq (mlit "delay-") mint) c ||
  mfull (mseq (mlit "ease-") (mlits ["linear", "in", "out", "in-out"])) c ||
  mfull (mlits ["static", "fixed", "absolute", "relative", "sticky"]) c ||
  mfull (mseqs [mopt (mch (· == '-')), mlits ["inset", "inset-x", "inset-y", "top",
    "right", "bottom", "left"], mlit "-", malt mnum (malt (mlits ["px", "auto",
    "full"]) mfrac)]) c ||
  mfull (mseqs [mopt (mch (· == '-')), mlit "z-", malt mint (mlit "auto")]) c

/-- Overflow, visibility, object and interactivity patterns. -/
def twM (c : Tok) : Bool :=
  mfull (mseqs [mlits ["overflow", "overflow-x", "overflow-y"], mlit "-",
    mlits ["auto", "hidden", "clip", "visible", "scroll"]]) c ||
  mfull (mseqs [mlits ["overscroll", "overscroll-x", "overscroll-y"], mlit "-",
    mlits ["auto", "contain", "none"]]) c ||
  mfull (mlits ["visible", "invisible", "collapse"]) c ||
  mfull (mlits ["isolate", "isolation-auto"]) c ||
  mfull (mseq (mlit "object-") (mlits ["contain", "cover", "fill", "none",
    "scale-down"])) c ||
  mfull (mseq (mlit "object-") (mlits ["bottom", "center", "left", "left-bottom",
    "left-top", "right", "right-bottom", "right-top", "top"])) c ||
  mfull (mlits ["appearance-none", "appearance-auto"]) c ||
  mfull (mseq (mlit "cursor-") (mlits cursorNames)) c ||
  mfull (mseqs [mlit "caret-", mword, mlit "-", mint]) c ||
  mfull (mseq (mlit "pointer-events-") (mlits ["none", "auto"])) c ||
  mfull (mseqs [mlit "resize", mopt (mlits ["-none", "-y", "-x"])]) c ||
  mfull (mseq (mlit "scroll-") (mlits ["auto", "smooth"])) c ||
  mfull (mseqs [mlit "scroll-", mlits ["m", "p"], mopt (mlits ["-x", "-y", "-s",
    "-e", "-t", "-r", "-b", "-l"]), mlit "-", malt mnum (mlit "px")]) c ||
  mfull (mseq (mlit "snap-") (mlits ["none", "x", "y", "both", "mandatory",
    "proximity"])) c ||
  mfull (mseq (mlit "snap-") (mlits ["start", "end", "center", "align-none"])) c ||
  mfull (mseq (mlit "touch-") (mlits ["auto", "none", "pan-x", "pan-left",
    "pan-right", "pan-y", "pan-up", "pan-down", "pinch-zoom", "manipulation"])) c ||
  mfull (mseq (mlit "select-") (mlits ["none", "text", "all", "auto"])) c ||
  mfull (mseq (mlit "will-change-") (mlits ["auto", "scroll", "contents",
    "transform"])) c

/-- SVG, accessibility, grid and list patterns. -/
def twN (c : Tok) : Bool :=
  mfull (mseq (mlit "fill-") (malt (mlits ["none", "current"])
    (mseqs [mword, mlit "-", mint]))) c ||
  mfull (mseq (mlit "stroke-") (malt (mlits ["none", "current"])
    (malt (mseqs [mword, mlit "-", mint]) mint))) c ||
  mfull (mlits ["sr-only", "not-sr-only"]) c ||
  mfull (mseq (mlit "grid-cols-") (malt (mlits ["none", "subgrid"]) mint)) c ||
  mfull (mseq (mlit "col-") (malt (mlits ["auto", "span-full", "start-auto",
    "end-auto"]) (mseqs [mlits ["span", "start", "end"], mlit "-", mint]))) c ||
  mfull (mseq (mlit "grid-rows-") (malt (mlits ["none", "subgrid"]) mint)) c ||
  mfull (mseq (mlit "row-") (malt (mlits ["auto", "span-full", "start-auto",
    "end-auto"]) (mseqs [mlits ["span", "start", "end"], mlit "-", mint]))) c ||
  mfull (mseq (mlit "grid-flow-") (mlits ["row", "col", "dense", "row-dense",
    "col-dense"])) c ||
  mfull (mseqs [mlit "auto-", mlits ["cols", "rows"], mlit "-", mlits ["auto",
    "min", "max", "fr"]]) c ||
  mfull (mseq (mlit "list-") (mlits ["none", "disc", "decimal"])) c ||
  mfull (mseq (mlit "list-") (mlits ["inside", "outside"])) c ||
  mfull (mseqs [mlit "marker-", mword, mlit "-", mint]) c

/-- Variant-head patterns: state and pseudo-element pseudo-classes, group and
peer variants, media variants, attribute variants, and the generic bracketed
selectors. -/
def twO (c : Tok) : Bool :=
  mhead (mseq (mlits stateNames) (mlit ":")) c ||
  mhead (mseq (mlits pseudoElems) (mlit ":")) c ||
  mhead (mseq (mlits groupStates) (mlit ":")) c ||
  mhead (mseqs [mlit "group-has-[", mstar isDotC, mlit "]:"]) c ||
  mhead (mseq (mlits groupHasStates) (mlit ":")) c ||
  mfull (mseqs [mlit "group-", mwd, mch (· == '/'), mwd, mch (· == ':'), mwd]) c ||
  mhead (mseq (mlits peerStates) (mlit ":")) c ||
  mhead (mseqs [mlit "peer-has-[", mstar isDotC, mlit "]:"]) c ||
  mhead (mseq (mlits peerHasStates) (mlit ":")) c ||
  mhead (mseq (mlits ["sm", "md", "lg", "xl", "2xl"]) (mlit ":")) c ||
  mhead (mseq (mlits ["dark", "light"]) (mlit ":")) c ||
  mhead (mseq (mlits ["motion-safe", "motion-reduce", "contrast-more",
    "contrast-less"]) (mlit ":")) c ||
  mhead (mseq (mlits ["portrait", "landscape"]) (mlit ":")) c ||
  mhead (mlit "print:") c ||
  mhead (mseqs [mlit "supports-[", mstar isDotC, mlit "]:"]) c ||
  mhead (mseqs [malt (mseqs [mlit "data-[", mstar isDotC, mch (· == ']')])
    (mseqs [mlit "aria-[", mstar isDotC, mch (· == ']')]), mch (· == ':')]) c ||
  mhead (mseqs [mlit "[&", mstar isDotC, mlit "]:"]) c ||
  mfull (mseqs [mch (· == '['), mstar isDotC, mch (· == ']')]) c

/-- Function isTailwindUtility of the source: strip one leading important
marker, then test the pattern table; the token is a utility when any pattern
matches. -/
def isTailwindUtility (t : Tok) : Bool :=
  let c := stripBang t
  twA c || twB c || twC c || twD c || twE c || twF c || twG c || twH c ||
  twI c || twJ c || twK c || twL c || twM c || twN c || twO c

example : isTailwindUtility (tok "flex") = true := by decide
example : isTailwindUtility (tok "bg-primary") = false := by decide
example : isTailwindUtility (tok "bg-secondary") = false := by decide
example : isTailwindUtility (tok "text-xl") = true := by decide
example : isTailwindUtility (tok "dark:hover:bg-primary") = true := by decide
example : isTailwindUtility (tok "hover:") = true := by decide
example : isTailwindUtility (tok "!flex") = true := by decide
example : isTailwindUtility (tok "bg-red-500/50") = true := by decide
example : isTailwindUtility (tok "not-a-real-class-xyz") = false := by decide

/-! Override suppression (functions isOverridableUtility and hasThemeOverride
    of the source). -/

/-- The ten overridable default-scale patterns of isOverridableUtility, in
source order: default font sizes, font weights, font families, the default
color-shade grid, default spacing, gap and space scales, the default radius,
shadow and animation scales. -/
def isOverridableUtility (c : Tok) : Bool :=
  mfull (mseq (mlit "text-") (mlits sizeNames)) c ||
  mfull (mseq (mlit "font-") (mlits weightNames)) c ||
  mfull (mseq (mlit "font-") (mlits ["sans", "serif", "mono"])) c ||
  mfull (mseqs [mlits colorProps, mlit "-", mlits colorNames, mlit "-",
    mlits shadeNames]) c ||
  mfull (mseqs [mlits spacingPres, mlit "-", malt mnum (mlit "px")]) c ||
  mfull (mseqs [mlit "gap", mopt (mlits ["-x", "-y"]), mlit "-",
    malt mnum (mlit "px")]) c ||
  mfull (mseqs [mlit "space-", mlits ["x", "y"], mlit "-",
    malt mnum (mlit "px")]) c ||
  mfull (mseqs [mlit "rounded", mopt (mlits roundSufs)]) c ||
  mfull (mseqs [mlit "shadow", mopt (mlits shadowSufs)]) c ||
  mfull (mseq (mlit "animate-") (mlits ["none", "spin", "ping", "pulse",
    "bounce"])) c

/-- Shade suffix extraction for hasThemeOverride: find the property head,
color name and shade of the default color grid; returns the color name and
shade. -/
def colorGridSplit (c : Tok) : Option (Tok × Tok) :=
  colorProps.findSome? (fun p =>
    if (tok p ++ [ '-' ]).isPrefixOf c then
      let r := c.drop (p.length + 1)
      colorNames.findSome? (fun col =>
        if (tok col ++ [ '-' ]).isPrefixOf r then
          let sh := r.drop (col.length + 1)
          if shadeNames.any (fun s => sh == tok s) then some (tok col, sh) else none
        else none)
    else none)

/-- Spacing-size extraction for hasThemeOverride: the spacing property head,
a hyphen, then the numeric size or the px keyword. -/
def spacingSplit (c : Tok) : Option Tok :=
  spacingPres.findSome? (fun p =>
    if (tok p ++ [ '-' ]).isPrefixOf c then
      let sz := c.drop (p.length + 1)
      if mfull mnum sz || sz == tok "px" then some sz else none
    else none)

/-- Radius-suffix extraction for hasThemeOverride: bare rounded maps to the
DEFAULT slot, a listed suffix maps to its name without the hyphen. -/
def radiusSplit (c : Tok) : Option Tok :=
  if c == tok "rounded" then some (tok "DEFAULT")
  else
    roundSufs.findSome? (fun s =>
      if c == tok "rounded" ++ tok s then some ((tok s).drop 1) else none)

/-- Shadow suffixes tested by hasThemeOverride; the source pattern there omits
the -xl entry that isOverridableUtility has. -/
def shadowOverrideSufs : List String := ["-none", "-sm", "-md", "-lg", "-2xl",
  "-3xl", "-inner"]

/-- Shadow-suffix extraction for hasThemeOverride. -/
def shadowSplit (c : Tok) : Option Tok :=
  if c == tok "shadow" then some (tok "DEFAULT")
  else
    shadowOverrideSufs.findSome? (fun s =>
      if c == tok "shadow" ++ tok s then some ((tok s).drop 1) else none)

/-- Function hasThemeOverride of the source: an ordered chain of scale-slot
tests against the extracted theme-variable names.  The argument tv is the
session's foundThemeVariables set. -/
def hasThemeOverride (tv : List Tok) (c : Tok) : Bool :=
  match sizeNames.find? (fun sz => c == tok "text-" ++ tok sz) with
  | some sz => tv.contains (tok "font-size-" ++ tok sz) ||
               tv.contains (tok "text-" ++ tok sz)
  | none =>
  match weightNames.find? (fun w => c == tok "font-" ++ tok w) with
  | some w => tv.contains (tok "font-weight-" ++ tok w)
  | none =>
  match colorGridSplit c with
  | some (col, sh) => tv.contains (tok "color-" ++ col ++ [ '-' ] ++ sh)
  | none =>
  match spacingSplit c with
  | some sz => tv.contains (tok "spacing-" ++ sz)
  | none =>
  match radiusSplit c with
  | some r => tv.contains (tok "radius-" ++ r)
  | none =>
  match shadowSplit c with
  | some s => tv.contains (tok "shadow-" ++ s)
  | none => false

example : isOverridableUtility (tok "text-xl") = true := by decide
example : isOverridableUtility (tok "hover:text-xl") = false := by decide
example : isOverridableUtility (tok "dark:hover:bg-primary") = false := by decide
example : hasThemeOverride [tok "font-size-xl"] (tok "text-xl") = true := by decide
example : hasThemeOverride [] (tok "text-xl") = false := by decide
example : hasThemeOverride [tok "color-red-500"] (tok "bg-red-500") = true := by decide
example : hasThemeOverride [tok "spacing-4"] (tok "p-4") = true := by decide
example : hasThemeOverride [tok "radius-DEFAULT"] (tok "rounded") = true := by decide

/-! Session state and the validation policy (function isValidClass of the
    source). -/

/-- The per-session state consulted by isValidClass: the validClasses set
(after the custom classes were copied into it), the foundThemeVariables set,
the hasTailwindImport flag and the allowArbitraryValues option. -/
structure Session where
  validClasses : List Tok
  foundThemeVariables : List Tok
  hasTailwindImport : Bool
  allowArbitraryValues : Bool
deriving Repr

/-- Function isValidClass of the source.  The early returns of the base-class
block are modelled by the nested conditionals: when a base exists and the
structural test on the base fires, its override-suppressed answer is returned
outright; only when that test does not fire does control reach the final
structural test on the whole token. -/
def isValidClass (sess : Session) (c : Tok) : Bool :=
  if isArbitraryValue (stripBang c) && sess.allowArbitraryValues then true
  else if sess.validClasses.contains (stripBang c) then true
  else
    match getBaseClass c with
    | some b =>
      if sess.validClasses.contains (stripBang b) then true
      else if sess.hasTailwindImport && isTailwindUtility (stripBang b) then
        !isOverridableUtility (stripBang b) ||
          !hasThemeOverride sess.foundThemeVariables (stripBang b)
      else if sess.hasTailwindImport && isTailwindUtility c then
        !isOverridableUtility (stripBang c) ||
          !hasThemeOverride sess.foundThemeVariables (stripBang c)
      else false
    | none =>
      if sess.hasTailwindImport && isTailwindUtility c then
        !isOverridableUtility (stripBang c) ||
          !hasThemeOverride sess.foundThemeVariables (stripBang c)
      else false

example : isValidClass ⟨[], [], true, true⟩ (tok "flex") = true := by decide
example : isValidClass ⟨[], [], false, true⟩ (tok "flex") = false := by decide
example : isValidClass ⟨[], [], false, true⟩ (tok "bg-[#ff0000]") = true := by decide
example : isValidClass ⟨[], [], true, true⟩ (tok "dark:hover:bg-primary") = true := by decide
example : isValidClass ⟨[], [], true, true⟩ (tok "bg-primary") = false := by decide
example : isValidClass ⟨[], [tok "font-size-xl"], true, true⟩ (tok "hover:text-xl") = false := by decide
example : isValidClass ⟨[], [tok "font-size-xl"], true, true⟩ (tok "text-xl") = false := by decide
example : isValidClass ⟨[tok "bg-primary"], [], false, true⟩ (tok "dark:hover:bg-primary") = true := by decide

/-! CSS vocabulary extraction (functions detectTailwindImport,
    extractExplicitClasses, extractThemeVariables, extractUtilityDefinitions,
    extractLayerDefinitions, extractGradientUtilities of the source).  The
    global-regex scans are modelled by scanners that attempt a match at each
    position and continue after a successful match, which is the exec-loop
    semantics; fuel equal to the text length bounds each scanner and is
    sufficient because every step consumes at least one character. -/

/-- Quote characters of the import patterns. -/
def isQuote (c : Char) : Bool := c == '"' || c == '\''

/-- Unanchored search of a pattern, the test semantics of an unanchored
regex. -/
def searchM (m : M) : Tok → Bool
  | [] => mhead m []
  | c :: r => mhead m (c :: r) || searchM m r

/-- Function detectTailwindImport of the source: any of the five base
framework declaration forms occurs in the text. -/
def detectTailwindImport (css : Tok) : Bool :=
  searchM (mseqs [mlit "@import", mplus isJsWS, mch isQuote, mlit "tailwindcss",
    mch isQuote]) css ||
  searchM (mseqs [mlit "@import", mplus isJsWS, mlit "url(", mopt (mch isQuote),
    mlit "tailwindcss", mopt (mch isQuote), mch (· == ')')]) css ||
  searchM (mseqs [mlit "@tailwind", mplus isJsWS, mlits ["base", "components",
    "utilities"]]) css ||
  searchM (mseqs [mlit "@import", mplus isJsWS, mch isQuote, mlit "tailwindcss/",
    mstar (fun c => !isQuote c), mch isQuote]) css ||
  searchM (mseqs [mlit "@theme", mstar isJsWS, mch (· == '{')]) css

/-- Replace every non-overlapping two-character occurrence by one character,
the semantics of a global two-character regex replacement. -/
def rep2 (a b r : Char) : Tok → Tok
  | [] => []
  | [x] => [x]
  | x :: y :: rest =>
    if x == a && y == b then r :: rep2 a b r rest
    else x :: rep2 a b r (y :: rest)

/-- The escaped-selector unescaping chain of the source, in its order. -/
def unescapeCls (t : Tok) : Tok :=
  rep2 '\\' '\\' '\\'
    (rep2 '\\' '-' '-'
      (rep2 '\\' ')' ')'
        (rep2 '\\' '(' '('
          (rep2 '\\' ']' ']'
            (rep2 '\\' '[' '['
              (rep2 '\\' '.' '.'
                (rep2 '\\' '/' '/'
                  (rep2 '\\' ':' ':' t))))))))

/-- Characters allowed after a backslash in an escaped selector name. -/
def isEscC (c : Char) : Bool :=
  isWordC c || c == '/' || c == '.' || c == ':' || c == '[' || c == ']'

/-- The escaped-segment loop of the selector name pattern: zero or more groups
of a backslash, one or more escape-class characters, and a word-dash run. -/
def escLoop : Nat → Tok → (Tok × Tok)
  | 0, l => ([], l)
  | n + 1, l =>
    match l with
    | '\\' :: r =>
      let s1 := r.span isEscC
      if s1.1.isEmpty then ([], l)
      else
        let s2 := s1.2.span isWordDash
        let s3 := escLoop n s2.2
        ('\\' :: (s1.1 ++ s2.1 ++ s3.1), s3.2)
    | _ => ([], l)

/-- Attempt the selector-name pattern right after a dot: a letter or at sign,
a word-dash run, escaped segments, whitespace, an open brace.  Returns the
raw captured name and the rest after the brace. -/
def clsNameAfterDot (l : Tok) : Option (Tok × Tok) :=
  match l with
  | [] => none
  | c :: r =>
    if c.isAlpha || c == '@' then
      let s1 := r.span isWordDash
      let s2 := escLoop s1.2.length s1.2
      let r3 := s2.2.dropWhile isJsWS
      match r3 with
      | '{' :: r4 => some (c :: (s1.1 ++ s2.1), r4)
      | _ => none
    else none

/-- Scanner of the explicit selector pattern: attempt at every dot, continue
after each match, advance one character on failure. -/
def scanClsAux : Nat → Tok → List Tok
  | 0, _ => []
  | _ + 1, [] => []
  | n + 1, c :: r =>
    if c == '.' then
      match clsNameAfterDot r with
      | some (cap, rest) => unescapeCls cap :: scanClsAux n rest
      | none => scanClsAux n r
    else scanClsAux n r

/-- Function extractExplicitClasses of the source: the unescaped class names
of every explicit selector of the text, in order. -/
def extractExplicitList (css : Tok) : List Tok := scanClsAux css.length css

/-- Attempt the gradient selector pattern right after a dot. -/
def gradNameAfterDot (l : Tok) : Option (Tok × Tok) :=
  ["from", "via", "to"].findSome? (fun g =>
    if litPre (tok g ++ ['-']) l then
      match l.drop (g.length + 1) with
      | c :: r1 =>
        if c.isAlpha then
          let s1 := r1.span isWordDash
          let r3 := s1.2.dropWhile isJsWS
          match r3 with
          | '{' :: r4 => some (tok g ++ ['-'] ++ (c :: s1.1), r4)
          | _ => none
        else none
      | [] => none
    else none)

/-- Scanner of the gradient selector pattern. -/
def scanGradAux : Nat → Tok → List Tok
  | 0, _ => []
  | _ + 1, [] => []
  | n + 1, c :: r =>
    if c == '.' then
      match gradNameAfterDot r with
      | some (cap, rest) => cap :: scanGradAux n rest
      | none => scanGradAux n r
    else scanGradAux n r

/-- Function extractGradientUtilities of the source: the gradient-stop class
names declared as selectors. -/
def gradientList (css : Tok) : List Tok := scanGradAux css.length css

/-- Attempt the theme-block pattern at a position: the at-theme keyword,
whitespace, an open brace, then the lazy body up to the first close brace. -/
def themeBlockAt (l : Tok) : Option (Tok × Tok) :=
  if litPre (tok "@theme") l then
    let r := (l.drop 6).dropWhile isJsWS
    match r with
    | '{' :: r1 =>
      let s := r1.span (fun c => !(c == '}'))
      match s.2 with
      | '}' :: r2 => some (s.1, r2)
      | _ => none
    | _ => none
  else none

/-- Scanner of theme blocks. -/
def scanThemeAux : Nat → Tok → List Tok
  | 0, _ => []
  | _ + 1, [] => []
  | n + 1, c :: r =>
    match themeBlockAt (c :: r) with
    | some (content, rest) => content :: scanThemeAux n rest
    | none => scanThemeAux n r

/-- The theme-block bodies of a text, in order. -/
def themeBlockList (css : Tok) : List Tok := scanThemeAux css.length css

/-- Attempt the theme-variable pattern at a position: two hyphens, a letter, a
word-dash run, whitespace, a colon, a nonempty value, a semicolon.  Returns
the variable name and the rest after the semicolon. -/
def varAt (l : Tok) : Option (Tok × Tok) :=
  match l with
  | '-' :: '-' :: c :: r =>
    if c.isAlpha then
      let s1 := r.span isWordDash
      let r2 := s1.2.dropWhile isJsWS
      match r2 with
      | ':' :: r3 =>
        let s2 := r3.span (fun ch => !(ch == ';'))
        if s2.1.isEmpty then none
        else
          match s2.2 with
          | ';' :: r4 => some (c :: s1.1, r4)
          | _ => none
      | _ => none
    else none
  | _ => none

/-- Scanner of theme variables inside one block body. -/
def scanVarAux : Nat → Tok → List Tok
  | 0, _ => []
  | _ + 1, [] => []
  | n + 1, c :: r =>
    match varAt (c :: r) with
    | some (name, rest) => name :: scanVarAux n rest
    | none => scanVarAux n r

/-- The variable names of one theme-block body. -/
def varNamesOf (body : Tok) : List Tok := scanVarAux body.length body

/-- Function extractThemeVariables of the source, restricted to the names it
adds to foundThemeVariables: every variable of every theme block. -/
def themeVarNames (css : Tok) : List Tok := (themeBlockList css).flatMap varNamesOf

/-- Attempt the utility-directive pattern at a position. -/
def utilityAt (l : Tok) : Option (Tok × Tok) :=
  if litPre (tok "@utility") l then
    let s1 := (l.drop 8).span isJsWS
    if s1.1.isEmpty then none
    else
      match s1.2 with
      | c :: r2 =>
        if c.isAlpha then
          let s2 := r2.span isWordDash
          some (c :: s2.1, s2.2)
        else none
      | [] => none
  else none

/-- Scanner of utility directives. -/
def scanUtilAux : Nat → Tok → List Tok
  | 0, _ => []
  | _ + 1, [] => []
  | n + 1, c :: r =>
    match utilityAt (c :: r) with
    | some (name, rest) => name :: scanUtilAux n rest
    | none => scanUtilAux n r

/-- Function extractUtilityDefinitions of the source. -/
def utilityDefList (css : Tok) : List Tok := scanUtilAux css.length css

/-- Parse the one-level-nested layer body: alternating brace-free runs and
single-level brace groups, ending at the un-nested close brace.  Returns the
raw body and the rest after that brace. -/
def layerBody : Nat → Tok → Tok → Option (Tok × Tok)
  | 0, _, _ => none
  | n + 1, l, acc =>
    let s := l.span (fun c => !(c == '{' || c == '}'))
    match s.2 with
    | '}' :: r1 => some (acc ++ s.1, r1)
    | '{' :: r1 =>
      let s2 := r1.span (fun c => !(c == '{' || c == '}'))
      match s2.2 with
      | '}' :: r3 => layerBody n r3 (acc ++ s.1 ++ '{' :: (s2.1 ++ ['}']))
      | _ => none
    | _ => none

/-- Attempt the layer-block pattern at a position. -/
def layerAt (l : Tok) : Option (Tok × Tok) :=
  if litPre (tok "@layer") l then
    let s1 := (l.drop 6).span isJsWS
    if s1.1.isEmpty then none
    else
      match ["base", "components", "utilities"].findSome? (fun k =>
        if litPre (tok k) s1.2 then some (s1.2.drop (tok k).length) else none) with
      | some r2 =>
        let r3 := r2.dropWhile isJsWS
        match r3 with
        | '{' :: r4 => layerBody r4.length r4 []
        | _ => none
      | none => none
  else none

/-- Scanner of layer blocks. -/
def scanLayerAux : Nat → Tok → List Tok
  | 0, _ => []
  | _ + 1, [] => []
  | n + 1, c :: r =>
    match layerAt (c :: r) with
    | some (body, rest) => body :: scanLayerAux n rest
    | none => scanLayerAux n r

/-- Function extractLayerDefinitions of the source: the selector names found
inside layer bodies, unescaped by the same chain. -/
def layerClassList (css : Tok) : List Tok :=
  (scanLayerAux css.length css).flatMap extractExplicitList

/-! Utility generation from theme variables (the nine generator functions of
    the source).  Each generated name is kept only when it is not in the
    explicit-class set of the declaring file. -/

/-- Function generateColorUtilities of the source. -/
def genColor (ex : List Tok) (v : Tok) : List Tok :=
  if litPre (tok "color-") v then
    let n := v.drop 6
    (([tok "text-", tok "bg-", tok "border-", tok "decoration-", tok "outline-",
      tok "ring-", tok "ring-offset-", tok "shadow-", tok "accent-", tok "caret-",
      tok "fill-", tok "stroke-", tok "from-", tok "via-", tok "to-",
      tok "border-t-", tok "border-r-", tok "border-b-", tok "border-l-",
      tok "border-x-", tok "border-y-", tok "border-s-", tok "border-e-",
      tok "border-is-", tok "border-ie-", tok "border-bs-", tok "border-be-",
      tok "divide-"].map (· ++ n))).filter (fun u => !ex.contains u)
  else []

/-- A one-name generator: when the variable has the given head, emit the
output head followed by the remainder, unless explicitly declared. -/
def genOne (pre out : String) (ex : List Tok) (v : Tok) : List Tok :=
  if litPre (tok pre) v then
    let u := tok out ++ v.drop (tok pre).length
    if !ex.contains u then [u] else []
  else []

/-- Spacing property heads used by generateSpacingUtilities of the source. -/
def spacingGenPres : List String := ["p", "m", "px", "py", "pt", "pr", "pb", "pl",
  "mx", "my", "mt", "mr", "mb", "ml", "gap", "space-x", "space-y"]

/-- Function generateSpacingUtilities of the source. -/
def genSpacing (ex : List Tok) (v : Tok) : List Tok :=
  if litPre (tok "spacing-") v then
    let n := v.drop 8
    ((spacingGenPres.map (fun p => tok p ++ ['-'] ++ n))).filter
      (fun u => !ex.contains u)
  else []

/-- Function generateUtilitiesFromVariable of the source: the nine generators
in their dispatch order. -/
def genFromVar (ex : List Tok) (v : Tok) : List Tok :=
  genColor ex v ++
  genOne "animate-" "animate-" ex v ++
  genOne "shadow-" "shadow-" ex v ++
  genOne "radius-" "rounded-" ex v ++
  genSpacing ex v ++
  genOne "text-" "text-" ex v ++
  genOne "font-family-" "font-" ex v ++
  genOne "font-weight-" "font-" ex v ++
  genOne "font-size-" "text-" ex v

/-- The accumulated extraction state across the traversal: the customClasses
set, the foundThemeVariables set and the hasTailwindImport flag. -/
structure ExtState where
  custom : List Tok
  themeVars : List Tok
  twImport : Bool
deriving Repr, DecidableEq

/-- The initial extraction state. -/
def initState : ExtState := ⟨[], [], false⟩

/-- The per-file work of the traversal loop body: detect the base framework,
then run the five extraction scans of extractCustomClasses, generating
utilities from each theme variable against the file's explicit-class set. -/
def processFile (st : ExtState) (css : Tok) : ExtState :=
  let ex := extractExplicitList css
  let tvs := themeVarNames css
  { custom := st.custom ++ ex ++ gradientList css ++
      tvs.flatMap (genFromVar ex) ++ utilityDefList css ++ layerClassList css,
    themeVars := st.themeVars ++ tvs,
    twImport := st.twImport || detectTailwindImport css }

example : extractExplicitList (tok ".custom-badge \x7b color: red; \x7d") =
    [tok "custom-badge"] := by decide
example : extractExplicitList (tok ".sm\\:bg-primary\\/50 \x7b \x7d") =
    [tok "sm:bg-primary/50"] := by decide
example : themeVarNames (tok "@theme \x7b --color-primary: #123; \x7d") =
    [tok "color-primary"] := by decide
example : detectTailwindImport (tok "@theme \x7b --color-primary: #123; \x7d") = true := by
  decide
example : detectTailwindImport (tok "@import \"tailwindcss\";") = true := by decide
example : detectTailwindImport (tok ".a \x7b \x7d") = false := by decide
example : utilityDefList (tok "@utility tab-4 \x7b tab-size: 4; \x7d") =
    [tok "tab-4"] := by decide
example : (processFile initState
    (tok "@theme \x7b --color-primary: #123; \x7d")).custom.contains
    (tok "bg-primary") = true := by decide
example : (processFile initState
    (tok "@theme \x7b --color-primary: #123; \x7d")).custom.contains
    (tok "bg-secondary") = false := by decide

/-! Import resolution (functions parseCSSImports and queueCSSImports of the
    source).  The filesystem is a finite map from absolute paths to file
    texts; existsSync is domain membership and readFileSync is lookup.  Path
    resolution reproduces the posix resolve, dirname and extname behaviour on
    absolute paths. -/

/-- The filesystem model: a finite association list from paths to texts. -/
abbrev FS := List (Tok × Tok)

/-- Model of readFileSync and existsSync. -/
def lookupFS (fs : FS) (p : Tok) : Option Tok := fs.lookup p

/-- The domain of the filesystem. -/
def fsPaths (fs : FS) : List Tok := fs.map Prod.fst

/-- Split a path into slash-separated segments. -/
def splitSegAux : Tok → Tok → List Tok
  | [], acc => [acc.reverse]
  | '/' :: r, acc => acc.reverse :: splitSegAux r []
  | c :: r, acc => splitSegAux r (c :: acc)

/-- Segments of a path. -/
def splitSeg (p : Tok) : List Tok := splitSegAux p []

/-- Join segments into an absolute path. -/
def joinSeg (segs : List Tok) : Tok := segs.foldl (fun acc s => acc ++ '/' :: s) []

/-- Normalize segments: drop empty and dot segments, let dot-dot pop. -/
def normSegs : List Tok → List Tok → List Tok
  | [], acc => acc.reverse
  | s :: r, acc =>
    if s.isEmpty || s == tok "." then normSegs r acc
    else if s == tok ".." then normSegs r acc.tail
    else normSegs r (s :: acc)

/-- Model of resolve on an absolute directory and a relative path. -/
def resolvePath (dir rel : Tok) : Tok := joinSeg (normSegs (splitSeg (dir ++ '/' :: rel)) [])

/-- Model of dirname on an absolute path. -/
def dirnameTok (p : Tok) : Tok :=
  let s := p.reverse.span (fun c => !(c == '/'))
  match s.2 with
  | [] => tok "."
  | ['/'] => tok "/"
  | '/' :: rest => rest.reverse
  | _ => tok "."

/-- Model of extname. -/
def extnameTok (p : Tok) : Tok :=
  let base := (p.reverse.takeWhile (fun c => !(c == '/'))).reverse
  let r := base.reverse.span (fun c => !(c == '.'))
  match r.2 with
  | '.' :: rest => if rest.isEmpty then [] else '.' :: r.1.reverse
  | _ => []

example : resolvePath (tok "/") (tok "./b.css") = tok "/b.css" := by decide
example : resolvePath (tok "/x/y") (tok "../b.css") = tok "/x/b.css" := by decide
example : dirnameTok (tok "/a.css") = tok "/" := by decide
example : dirnameTok (tok "/x/y.css") = tok "/x" := by decide
example : extnameTok (tok "/b.css") = tok ".css" := by decide
example : extnameTok (tok "/b") = tok "" := by decide

/-- Attempt the import-statement pattern at a position: the at-import keyword,
whitespace, a quote, a nonempty unquoted body, a quote, an optional
semicolon.  Returns the import target and the rest after the match. -/
def importAt (l : Tok) : Option (Tok × Tok) :=
  if litPre (tok "@import") l then
    let s1 := (l.drop 7).span isJsWS
    if s1.1.isEmpty then none
    else
      match s1.2 with
      | q :: r2 =>
        if isQuote q then
          let s2 := r2.span (fun c => !isQuote c)
          if s2.1.isEmpty then none
          else
            match s2.2 with
            | q2 :: r3 =>
              if isQuote q2 then
                match r3 with
                | ';' :: r4 => some (s2.1, r4)
                | _ => some (s2.1, r3)
              else none
            | [] => none
        else none
      | [] => none
  else none

/-- Scanner of import statements. -/
def scanImportAux : Nat → Tok → List Tok
  | 0, _ => []
  | _ + 1, [] => []
  | n + 1, c :: r =>
    match importAt (c :: r) with
    | some (t, rest) => t :: scanImportAux n rest
    | none => scanImportAux n r

/-- The import targets of a text, in order. -/
def importTargetsRaw (css : Tok) : List Tok := scanImportAux css.length css

/-- Extension probing of queueCSSImports: the first stylesheet extension whose
file exists wins, else the path is left unchanged. -/
def probeExts (fs : FS) (full : Tok) : Tok :=
  match [".css", ".scss", ".sass", ".less"].find?
      (fun e => (lookupFS fs (full ++ tok e)).isSome) with
  | some e => full ++ tok e
  | none => full

/-- Function queueCSSImports of the source: the paths enqueued while parsing
one file.  Base-framework imports are skipped, only relative targets are
resolved, extension probing applies when the literal target has none, and a
path is enqueued only when it exists and is unvisited. -/
def importTargets (fs : FS) (cur : Tok) (css : Tok) (visited : List Tok) : List Tok :=
  (importTargetsRaw css).flatMap (fun t =>
    if t == tok "tailwindcss" || litPre (tok "tailwindcss/") t then []
    else if litPre (tok "./") t || litPre (tok "../") t then
      let full := resolvePath (dirnameTok cur) t
      let full2 := if (extnameTok full).isEmpty then probeExts fs full else full
      if (lookupFS fs full2).isSome && !visited.contains full2 then [full2] else []
    else [])

example : importTargetsRaw (tok "@import \"./b.css\";") = [tok "./b.css"] := by decide
example : importTargetsRaw (tok "@import \"tailwindcss\"; .x \x7b \x7d") =
    [tok "tailwindcss"] := by decide

/-! The traversal loop of parseCSSImports: a FIFO queue seeded with the root,
    a visited set consulted at pop time and extended before parsing, silent
    skips of unreadable files, and enqueueing of resolved relative imports.
    Termination is genuine: every iteration either shrinks the queue without
    touching the visited set, or marks one more existing path visited. -/

/-- Filter length equals the matching count. -/
theorem lengthFilterEq {α : Type} (l : List α) (p : α → Bool) :
    (l.filter p).length = l.countP p := by
  induction l with
  | nil => rfl
  | cons a t ih => by_cases h : p a <;> simp [List.filter, h, List.countP_cons, ih]

/-- A successful lookup means the key is in the domain. -/
theorem lookup_mem_fsPaths {fs : FS} {p v : Tok} (h : fs.lookup p = some v) :
    p ∈ fsPaths fs := by
  induction fs with
  | nil => simp [List.lookup] at h
  | cons x t ih =>
    rw [List.lookup] at h
    by_cases hb : p == x.1
    · simp [fsPaths, List.mem_map]
      exact Or.inl (beq_iff_eq.mp hb)
    · simp [hb] at h
      have := ih h
      simp [fsPaths, List.mem_map] at this ⊢
      exact Or.inr this

/-- A count is strictly monotone under a pointwise implication with a
witness where the implication is strict. -/
theorem countP_lt_of_witness {α : Type} (l : List α) (q q' : α → Bool)
    (mono : ∀ a ∈ l, q' a = true → q a = true) (x : α) (hx : x ∈ l)
    (hq : q x = true) (hq' : q' x = false) : l.countP q' < l.countP q := by
  induction l with
  | nil => cases hx
  | cons a t ih =>
    have monoT : ∀ b ∈ t, q' b = true → q b = true :=
      fun b hb => mono b (List.mem_cons_of_mem _ hb)
    rcases List.mem_cons.mp hx with rfl | hxt
    · have hle : t.countP q' ≤ t.countP q := List.countP_mono_left monoT
      have e1 : (x :: t).countP q = t.countP q + 1 := by
        rw [List.countP_cons]; simp [hq]
      have e2 : (x :: t).countP q' = t.countP q' := by
        rw [List.countP_cons]; simp [hq']
      rw [e1, e2]
      omega
    · have hlt : t.countP q' < t.countP q := ih monoT hxt
      have hifs : (if q' a = true then 1 else 0) ≤ (if q a = true then 1 else 0) := by
        by_cases ha : q' a = true
        · simp [ha, mono a (List.mem_cons_self a t) ha]
        · simp [ha]
      simp only [List.countP_cons]
      omega

/-- Marking one more path visited never grows the unvisited count. -/
theorem unvisited_cons_le (ks : List Tok) (p : Tok) (vis : List Tok) :
    (ks.filter (fun k => !(p :: vis).contains k)).length ≤
      (ks.filter (fun k => !vis.contains k)).length := by
  rw [lengthFilterEq, lengthFilterEq]
  refine List.countP_mono_left (fun a _ h => ?_)
  simp [List.contains_cons] at h ⊢
  exact h.2

/-- Marking an existing unvisited path visited strictly shrinks the unvisited
count. -/
theorem unvisited_cons_lt (ks : List Tok) (p : Tok) (vis : List Tok)
    (hp : p ∈ ks) (hnv : vis.contains p = false) :
    (ks.filter (fun k => !(p :: vis).contains k)).length <
      (ks.filter (fun k => !vis.contains k)).length := by
  rw [lengthFilterEq, lengthFilterEq]
  refine countP_lt_of_witness ks _ _ (fun a _ h => ?_) p hp ?_ ?_
  · simp [List.contains_cons] at h ⊢
    exact h.2
  · simpa using hnv
  · simp [List.contains_cons]

/-- The traversal loop of parseCSSImports.  Arguments: the queue, the visited
set, the list of files parsed so far (in order), and the accumulated
extraction state.  Returns the parsed list and the final state. -/
def impLoop (fs : FS) : List Tok → List Tok → List Tok → ExtState → List Tok × ExtState
  | [], _, parsed, st => (parsed, st)
  | p :: rest, visited, parsed, st =>
    if visited.contains p then impLoop fs rest visited parsed st
    else
      match hl : lookupFS fs p with
      | none => impLoop fs rest (p :: visited) parsed st
      | some css =>
        impLoop fs (rest ++ importTargets fs p css (p :: visited)) (p :: visited)
          (parsed ++ [p]) (processFile st css)
  termination_by q visited _ _ =>
    (((fsPaths fs).filter (fun k => !visited.contains k)).length, q.length)
  decreasing_by
  · exact Prod.Lex.right _ (Nat.lt_succ_self _)
  · rcases Nat.lt_or_ge
        (((fsPaths fs).filter (fun k => !(p :: visited).contains k)).length)
        (((fsPaths fs).filter (fun k => !visited.contains k)).length) with hlt | hge
    · exact Prod.Lex.left _ _ hlt
    · have hle := unvisited_cons_le (fsPaths fs) p visited
      have heq : ((fsPaths fs).filter (fun k => !(p :: visited).contains k)).length =
          ((fsPaths fs).filter (fun k => !visited.contains k)).length :=
        Nat.le_antisymm hle hge
      rw [heq]
      exact Prod.Lex.right _ (Nat.lt_succ_self _)
  · rename_i hv
    refine Prod.Lex.left _ _ (unvisited_cons_lt _ _ _ (lookup_mem_fsPaths hl) ?_)
    simpa using hv

/-- Function parseCSSImports of the source: nothing happens when the root is
missing; otherwise the loop runs from a queue holding the root. -/
def parseCSSImports (fs : FS) (root : Tok) : List Tok × ExtState :=
  if (lookupFS fs root).isSome then impLoop fs [root] [] [] initState
  else ([], initState)

/-- The session created by loadAllCSSClasses: the validClasses set is exactly
the customClasses set (the source copies customClasses into the initially
empty validClasses), together with the theme variables, the import flag and
the allowArbitraryValues option. -/
def buildSession (fs : FS) (root : Tok) (allowArb : Bool) : Session :=
  let st := (parseCSSImports fs root).2
  ⟨st.custom, st.themeVars, st.twImport, allowArb⟩

/-- The rule options read by create, exactly the fields of the declared
schema (there is no customClasses property and additionalProperties is
false). -/
structure RuleOptions where
  cssFile : String := "src/styles/globals.css"
  allowArbitraryValues : Bool := true
  debug : Bool := false

/-! Infrastructure lemmas about the variant stripper. -/

/-- Structural sanity of the prefixes table: literal and bracket heads are
nonempty, literal entries carry a colon, bracket heads carry an open
bracket. -/
def ppOK : PPat → Bool
  | .lit s => !s.data.isEmpty && s.data.contains ':'
  | .brk h => !h.data.isEmpty && h.data.contains '['
  | .gslash => true

theorem ppats_ok : ppats.all ppOK = true := by decide

/-- A successful lazy bracket strip shrinks the token. -/
theorem lazyBrkDrop_length : ∀ {l r : Tok}, lazyBrkDrop l = some r → r.length < l.length := by
  intro l
  induction l with
  | nil => intro r h; simp [lazyBrkDrop] at h
  | cons c rest ih =>
    intro r h
    rw [lazyBrkDrop] at h
    by_cases h1 : c == ']' && rest.head? == some ':'
    · rw [if_pos h1] at h
      cases h
      have : rest.tail.length ≤ rest.length := by
        cases rest <;> simp
      simp only [List.length_cons]
      omega
    · rw [if_neg h1] at h
      by_cases h2 : isNLC c = true
      · simp [h2] at h
      · simp only [h2, Bool.false_eq_true, if_false] at h
        have := ih h
        simp only [List.length_cons]
        omega

/-- Prefix length bound. -/
theorem isPrefixOf_length_le {a b : Tok} (h : litPre a b = true) :
    a.length ≤ b.length :=
  (litPre_iff_pre.mp h).length_le

/-- A successful slashed-group strip shrinks the token. -/
theorem gslashDrop_length : ∀ {t r : Tok}, gslashDrop t = some r → r.length < t.length := by
  intro t r h
  unfold gslashDrop at h
  split at h
  case isTrue hp =>
    have hlen6 : 6 ≤ t.length := isPrefixOf_length_le hp
    have hrest1 : ((t.drop 6).dropWhile isWordDash).length ≤ t.length - 6 := by
      calc ((t.drop 6).dropWhile isWordDash).length ≤ (t.drop 6).length :=
            (List.dropWhile_sublist _).length_le
        _ = t.length - 6 := List.length_drop 6 t
    split at h
    · simp at h
    · split at h
      case _ r2 heq =>
        have hr2 : r2.length + 1 ≤ t.length - 6 := by
          rw [heq] at hrest1
          simpa using hrest1
        have hrest2 : (r2.dropWhile isWordDash).length ≤ r2.length :=
          (List.dropWhile_sublist _).length_le
        split at h
        · simp at h
        · split at h
          case _ r4 heq2 =>
            have hr4 : r4.length + 1 ≤ r2.length := by
              rw [heq2] at hrest2
              simpa using hrest2
            injection h with h
            subst h
            omega
          case _ => simp at h
      case _ => simp at h
  case isFalse => simp at h

/-- A successful prefix strip shrinks the token. -/
theorem applyPP_length {pat : PPat} (hpat : pat ∈ ppats) :
    ∀ {t r : Tok}, applyPP pat t = some r → r.length < t.length := by
  have hok : ppOK pat = true := by
    have := ppats_ok
    rw [List.all_eq_true] at this
    exact this pat hpat
  intro t r h
  match pat, hok with
  | .lit s, hok =>
    rw [applyPP] at h
    by_cases hp : litPre s.data t
    · rw [if_pos hp] at h
      cases h
      have h1 : 0 < s.data.length := by
        simp [ppOK] at hok
        rcases hok with ⟨hne, _⟩
        cases hd : s.data with
        | nil => rw [hd] at hne; simp at hne
        | cons a l => simp [hd]
      have h2 : s.data.length ≤ t.length := isPrefixOf_length_le hp
      rw [List.length_drop]
      omega
    · simp [hp] at h
  | .brk hd, hok =>
    rw [applyPP] at h
    by_cases hp : litPre hd.data t
    · rw [if_pos hp] at h
      have := lazyBrkDrop_length h
      have h2 : (t.drop hd.data.length).length = t.length - hd.data.length :=
        List.length_drop _ _
      have h3 : hd.data.length ≤ t.length := isPrefixOf_length_le hp
      omega
    · simp [hp] at h
  | .gslash, _ =>
    exact gslashDrop_length h

/-- A successful pass of the prefix loop shrinks the token. -/
theorem stripVariantOnce_length {t r : Tok} (h : stripVariantOnce t = some r) :
    r.length < t.length := by
  rw [stripVariantOnce] at h
  obtain ⟨pat, hmem, happ⟩ := List.exists_of_findSome?_eq_some h
  exact applyPP_length hmem happ

/-- The fuel-bounded loop never grows the token. -/
theorem stripRun_length : ∀ (n : Nat) (t : Tok), (stripRun n t).length ≤ t.length := by
  intro n
  induction n with
  | zero => intro t; simp [stripRun]
  | succ n ih =>
    intro t
    rw [stripRun]
    cases hsv : stripVariantOnce t with
    | none => simp
    | some r =>
      have h1 := stripVariantOnce_length hsv
      have h2 := ih r
      show (stripRun n r).length ≤ t.length
      omega

/-- The loop fixes the empty token. -/
theorem stripRun_nil (n : Nat) : stripRun n ([] : Tok) = [] := by
  cases n with
  | zero => rfl
  | succ k =>
    rw [stripRun]
    have hsv : stripVariantOnce [] = none := by decide
    rw [hsv]

/-- Sufficient fuel is irrelevant. -/
theorem stripRun_congr : ∀ (n m : Nat) (t : Tok), t.length ≤ n → t.length ≤ m →
    stripRun n t = stripRun m t := by
  intro n
  induction n using Nat.strong_induction_on with
  | _ n ih =>
    intro m t hn hm
    match n, m with
    | 0, m =>
      have ht : t = [] := List.eq_nil_of_length_eq_zero (Nat.le_zero.mp hn)
      subst ht
      rw [stripRun_nil, stripRun_nil]
    | n + 1, 0 =>
      have ht : t = [] := List.eq_nil_of_length_eq_zero (Nat.le_zero.mp hm)
      subst ht
      rw [stripRun_nil, stripRun_nil]
    | n + 1, m + 1 =>
      show (match stripVariantOnce t with
        | some r => stripRun n r
        | none => t) = (match stripVariantOnce t with
        | some r => stripRun m r
        | none => t)
      cases hsv : stripVariantOnce t with
      | none => rfl
      | some r =>
        have hr := stripVariantOnce_length hsv
        simp only []
        exact ih n (Nat.lt_succ_self n) m r (by omega) (by omega)

/-- The defining recurrence of the prefix-stripping loop. -/
theorem stripAll_eq (t : Tok) :
    stripAll t = match stripVariantOnce t with
      | some r => stripAll r
      | none => t := by
  rw [stripAll]
  cases hn : t.length with
  | zero =>
    have ht : t = [] := List.eq_nil_of_length_eq_zero hn
    subst ht
    have hsv : stripVariantOnce [] = none := by decide
    rw [hsv]; rfl
  | succ k =>
    rw [stripRun]
    cases hsv : stripVariantOnce t with
    | none => rfl
    | some r =>
      have hr := stripVariantOnce_length hsv
      rw [hn] at hr
      exact stripRun_congr k r.length r (by omega) (Nat.le_refl _)

/-- The loop result never grows the token. -/
theorem stripAll_length (t : Tok) : (stripAll t).length ≤ t.length :=
  stripRun_length t.length t

/-- With no extracted theme variables no scale slot is overridden. -/
theorem hasThemeOverride_nil (c : Tok) : hasThemeOverride [] c = false := by
  rw [hasThemeOverride]
  repeat' split
  all_goals simp

/-! Character analysis of the overridable patterns: every token accepted by
    one of the ten overridable patterns consists of letters, digits, hyphens
    and dots only, so such a token carries no important marker, no bracket
    segment and no variant prefix. -/

/-- Letters, digits, hyphen, dot. -/
def isPlainC (c : Char) : Bool := c.isAlphanum || c == '-' || c == '.'

/-- A matcher only consumes characters of a class. -/
def ConsumesOnly (p : Char → Bool) (m : M) : Prop :=
  ∀ t r, r ∈ m t → ∃ pre, t = pre ++ r ∧ ∀ c ∈ pre, p c = true

theorem consumesOnly_mlit {p : Char → Bool} {s : String}
    (h : ∀ c ∈ s.data, p c = true) : ConsumesOnly p (mlit s) := by
  intro t r hr
  unfold mlit at hr
  split at hr
  case isTrue hp =>
    simp at hr
    subst hr
    obtain ⟨u, hu⟩ := litPre_iff_pre.mp hp
    have hdrop : t.drop s.data.length = u := by rw [← hu]; exact List.drop_left _ _
    refine ⟨s.data, ?_, h⟩
    show t = s.data ++ t.drop s.data.length
    rw [hdrop, hu]
  case isFalse => simp at hr

theorem consumesOnly_mch {p q : Char → Bool} (h : ∀ c, q c = true → p c = true) :
    ConsumesOnly p (mch q) := by
  intro t r hr
  cases t with
  | nil => simp [mch] at hr
  | cons c rest =>
    simp only [mch] at hr
    split at hr
    case isTrue hq =>
      simp at hr
      subst hr
      refine ⟨[c], rfl, ?_⟩
      intro x hx
      have hx' : x = c := by simpa using hx
      subst hx'
      exact h x hq
    case isFalse => simp at hr

theorem consumesOnly_meps {p : Char → Bool} : ConsumesOnly p meps := by
  intro t r hr
  simp [meps] at hr
  exact ⟨[], by simp [hr], by simp⟩

theorem consumesOnly_mseq {p : Char → Bool} {a b : M} (ha : ConsumesOnly p a)
    (hb : ConsumesOnly p b) : ConsumesOnly p (mseq a b) := by
  intro t r hr
  unfold mseq at hr
  rw [List.mem_flatMap] at hr
  obtain ⟨mid, hmid, hrb⟩ := hr
  obtain ⟨p1, hp1, hc1⟩ := ha t mid hmid
  obtain ⟨p2, hp2, hc2⟩ := hb mid r hrb
  refine ⟨p1 ++ p2, by rw [hp1, hp2, List.append_assoc], ?_⟩
  intro c hc
  rcases List.mem_append.mp hc with h1 | h2
  · exact hc1 c h1
  · exact hc2 c h2

theorem consumesOnly_malt {p : Char → Bool} {a b : M} (ha : ConsumesOnly p a)
    (hb : ConsumesOnly p b) : ConsumesOnly p (malt a b) := by
  intro t r hr
  unfold malt at hr
  rcases List.mem_append.mp hr with h1 | h2
  · exact ha t r h1
  · exact hb t r h2

theorem consumesOnly_mopt {p : Char → Bool} {a : M} (ha : ConsumesOnly p a) :
    ConsumesOnly p (mopt a) := by
  intro t r hr
  unfold mopt at hr
  rcases List.mem_append.mp hr with h1 | h2
  · exact ha t r h1
  · simp at h2
    exact ⟨[], by simp [h2], by simp⟩

theorem consumesOnly_mplus {p q : Char → Bool} (h : ∀ c, q c = true → p c = true) :
    ConsumesOnly p (mplus q) := by
  intro t r hr
  unfold mplus at hr
  rw [List.mem_map] at hr
  obtain ⟨i, hi, hdrop⟩ := hr
  rw [List.mem_range] at hi
  refine ⟨t.take (i + 1), by rw [← hdrop]; exact (List.take_append_drop _ _).symm, ?_⟩
  intro c hc
  have hle : i + 1 ≤ (t.takeWhile q).length := hi
  have htk : t.take (i + 1) = (t.takeWhile q).take (i + 1) := by
    conv_lhs => rw [← List.takeWhile_append_dropWhile (p := q) (l := t)]
    exact List.take_append_of_le_length hle
  rw [htk] at hc
  have hmem : c ∈ t.takeWhile q := List.take_subset _ _ hc
  exact h c (List.mem_takeWhile_imp hmem)

theorem consumesOnly_mstar {p q : Char → Bool} (h : ∀ c, q c = true → p c = true) :
    ConsumesOnly p (mstar q) := by
  intro t r hr
  unfold mstar at hr
  rcases List.mem_cons.mp hr with h1 | h2
  · exact ⟨[], by simp [h1], by simp⟩
  · exact consumesOnly_mplus h t r h2

theorem consumesOnly_mlits {p : Char → Bool} {ss : List String}
    (h : ∀ s ∈ ss, ∀ c ∈ s.data, p c = true) : ConsumesOnly p (mlits ss) := by
  intro t r hr
  unfold mlits at hr
  rw [List.mem_flatMap] at hr
  obtain ⟨s, hs, hrs⟩ := hr
  exact consumesOnly_mlit (h s hs) t r hrs

theorem consumesOnly_mseqs_cons {p : Char → Bool} {a : M} {ms : List M}
    (ha : ConsumesOnly p a) (hms : ConsumesOnly p (mseqs ms)) :
    ConsumesOnly p (mseqs (a :: ms)) :=
  consumesOnly_mseq ha hms

theorem consumesOnly_mseqs_nil {p : Char → Bool} : ConsumesOnly p (mseqs []) :=
  consumesOnly_meps

/-- A full match of a character-bounded matcher bounds every character of the
token. -/
theorem mfull_chars {p : Char → Bool} {m : M} (hm : ConsumesOnly p m) {t : Tok}
    (h : mfull m t = true) : ∀ c ∈ t, p c = true := by
  unfold mfull at h
  rw [List.any_eq_true] at h
  obtain ⟨r, hr, hre⟩ := h
  rw [List.isEmpty_iff] at hre
  subst hre
  obtain ⟨pre, hpre, hc⟩ := hm t [] hr
  rw [List.append_nil] at hpre
  subst hpre
  exact hc

theorem digit_plain : ∀ c, c.isDigit = true → isPlainC c = true := by
  intro c h
  simp [isPlainC, Char.isAlphanum, h]

theorem consumesOnly_mnum : ConsumesOnly isPlainC mnum := by
  unfold mnum
  refine consumesOnly_mseqs_cons (consumesOnly_mplus digit_plain)
    (consumesOnly_mseqs_cons (consumesOnly_mopt (consumesOnly_mch ?_))
      (consumesOnly_mseqs_cons (consumesOnly_mstar digit_plain) consumesOnly_meps))
  intro c h
  have : c = '.' := by simpa using h
  subst this
  decide

/-- Literal-leaf obligation: every character of the listed strings is plain. -/
theorem plainStrs (ss : List String) (h : ss.all (fun s => s.data.all isPlainC) = true) :
    ∀ s ∈ ss, ∀ c ∈ s.data, isPlainC c = true := by
  intro s hs c hc
  have h1 := (List.all_eq_true.mp h) s hs
  exact (List.all_eq_true.mp h1) c hc

theorem plainStr (s : String) (h : s.data.all isPlainC = true) :
    ∀ c ∈ s.data, isPlainC c = true :=
  fun c hc => (List.all_eq_true.mp h) c hc

/-- The ten overridable patterns consume only plain characters; a token they
accept in full is plain throughout. -/
theorem overridable_plain {c : Tok} (h : isOverridableUtility c = true) :
    ∀ ch ∈ c, isPlainC ch = true := by
  have hpx : ∀ ch ∈ (("px" : String)).data, isPlainC ch = true := plainStr _ (by decide)
  have hnumpx : ConsumesOnly isPlainC (malt mnum (mlit "px")) :=
    consumesOnly_malt consumesOnly_mnum (consumesOnly_mlit hpx)
  unfold isOverridableUtility at h
  simp only [Bool.or_eq_true] at h
  rcases h with ((((((((h | h) | h) | h) | h) | h) | h) | h) | h) | h
  · exact mfull_chars (consumesOnly_mseq (consumesOnly_mlit (plainStr _ (by decide)))
      (consumesOnly_mlits (plainStrs _ (by decide)))) h
  · exact mfull_chars (consumesOnly_mseq (consumesOnly_mlit (plainStr _ (by decide)))
      (consumesOnly_mlits (plainStrs _ (by decide)))) h
  · exact mfull_chars (consumesOnly_mseq (consumesOnly_mlit (plainStr _ (by decide)))
      (consumesOnly_mlits (plainStrs _ (by decide)))) h
  · exact mfull_chars (consumesOnly_mseqs_cons (consumesOnly_mlits (plainStrs _ (by decide)))
      (consumesOnly_mseqs_cons (consumesOnly_mlit (plainStr _ (by decide)))
        (consumesOnly_mseqs_cons (consumesOnly_mlits (plainStrs _ (by decide)))
          (consumesOnly_mseqs_cons (consumesOnly_mlit (plainStr _ (by decide)))
            (consumesOnly_mseqs_cons (consumesOnly_mlits (plainStrs _ (by decide)))
              consumesOnly_mseqs_nil))))) h
  · exact mfull_chars (consumesOnly_mseqs_cons (consumesOnly_mlits (plainStrs _ (by decide)))
      (consumesOnly_mseqs_cons (consumesOnly_mlit (plainStr _ (by decide)))
        (consumesOnly_mseqs_cons hnumpx consumesOnly_mseqs_nil))) h
  · exact mfull_chars (consumesOnly_mseqs_cons (consumesOnly_mlit (plainStr _ (by decide)))
      (consumesOnly_mseqs_cons (consumesOnly_mopt (consumesOnly_mlits (plainStrs _ (by decide))))
        (consumesOnly_mseqs_cons (consumesOnly_mlit (plainStr _ (by decide)))
          (consumesOnly_mseqs_cons hnumpx consumesOnly_mseqs_nil)))) h
  · exact mfull_chars (consumesOnly_mseqs_cons (consumesOnly_mlit (plainStr _ (by decide)))
      (consumesOnly_mseqs_cons (consumesOnly_mlits (plainStrs _ (by decide)))
        (consumesOnly_mseqs_cons (consumesOnly_mlit (plainStr _ (by decide)))
          (consumesOnly_mseqs_cons hnumpx consumesOnly_mseqs_nil)))) h
  · exact mfull_chars (consumesOnly_mseqs_cons (consumesOnly_mlit (plainStr _ (by decide)))
      (consumesOnly_mseqs_cons (consumesOnly_mopt (consumesOnly_mlits (plainStrs _ (by decide))))
        consumesOnly_mseqs_nil)) h
  · exact mfull_chars (consumesOnly_mseqs_cons (consumesOnly_mlit (plainStr _ (by decide)))
      (consumesOnly_mseqs_cons (consumesOnly_mopt (consumesOnly_mlits (plainStrs _ (by decide))))
        consumesOnly_mseqs_nil)) h
  · exact mfull_chars (consumesOnly_mseq (consumesOnly_mlit (plainStr _ (by decide)))
      (consumesOnly_mlits (plainStrs _ (by decide)))) h

/-- A plain token carries no leading important marker. -/
theorem plain_stripBang {c : Tok} (h : ∀ ch ∈ c, isPlainC ch = true) :
    stripBang c = c := by
  cases c with
  | nil => rfl
  | cons a r =>
    have ha := h a (List.mem_cons_self a r)
    rw [stripBang.eq_def]
    split
    case h_1 x heq =>
      injection heq with h1 h2
      subst h1
      exact absurd ha (by decide)
    case h_2 => rfl

/-- A plain token has no bracketed segment. -/
theorem plain_no_brk {c : Tok} (h : ∀ ch ∈ c, isPlainC ch = true) :
    hasBrkSeg c = false := by
  induction c with
  | nil => rfl
  | cons a r ih =>
    have ha := h a (List.mem_cons_self a r)
    have hr : ∀ ch ∈ r, isPlainC ch = true :=
      fun ch hch => h ch (List.mem_cons_of_mem _ hch)
    rw [hasBrkSeg]
    have hne : (a == '[') = false := by
      by_cases e : a = '['
      · subst e; exact absurd ha (by decide)
      · simp [e]
    simp [hne, ih hr]

/-- A plain token is not an arbitrary value. -/
theorem plain_not_arb {c : Tok} (h : ∀ ch ∈ c, isPlainC ch = true) :
    isArbitraryValue c = false := by
  unfold isArbitraryValue
  rw [plain_no_brk h]
  rfl

/-- Membership transported along a prefix. -/
theorem mem_of_isPrefixOf {a b : Tok} (h : litPre a b = true) {x : Char}
    (hx : x ∈ a) : x ∈ b :=
  (litPre_iff_pre.mp h).subset hx

/-- No prefix pattern applies to a plain token. -/
theorem plain_applyPP {c : Tok} (h : ∀ ch ∈ c, isPlainC ch = true) :
    ∀ pat ∈ ppats, applyPP pat c = none := by
  intro pat hpat
  have hok : ppOK pat = true := (List.all_eq_true.mp ppats_ok) pat hpat
  match pat with
  | .lit s =>
    rw [applyPP]
    by_cases hp : litPre s.data c
    · exfalso
      have hcolon : ':' ∈ s.data := by
        simp [ppOK] at hok
        simpa using hok.2
      have := h ':' (mem_of_isPrefixOf hp hcolon)
      exact absurd this (by decide)
    · simp [hp]
  | .brk hd =>
    rw [applyPP]
    by_cases hp : litPre hd.data c
    · exfalso
      have hbrk : '[' ∈ hd.data := by
        simp [ppOK] at hok
        simpa using hok.2
      have := h '[' (mem_of_isPrefixOf hp hbrk)
      exact absurd this (by decide)
    · simp [hp]
  | .gslash =>
    show gslashDrop c = none
    unfold gslashDrop
    by_cases hp : litPre (tok "group-") c
    · rw [if_pos hp]
      split
      · rfl
      · cases hm : (c.drop 6).dropWhile isWordDash with
        | nil => simp [hm]
        | cons d r2 =>
          have hd : d ∈ c := by
            have h1 : d ∈ (c.drop 6).dropWhile isWordDash := by rw [hm]; simp
            have h2 : d ∈ c.drop 6 := (List.dropWhile_sublist _).subset h1
            exact (List.drop_sublist _ _).subset h2
          have hdp := h d hd
          have hne : d ≠ '/' := by
            intro e; subst e; exact absurd hdp (by decide)
          split
          next r2' heq =>
            injection heq with h1 h2
            exact absurd h1 hne
          next => rfl
    · simp [hp]

/-- The prefix loop does not move on a plain token. -/
theorem plain_stripOnce {c : Tok} (h : ∀ ch ∈ c, isPlainC ch = true) :
    stripVariantOnce c = none := by
  rw [stripVariantOnce]
  rw [List.findSome?_eq_none_iff]
  exact fun pat hpat => plain_applyPP h pat hpat

/-- The iterated stripper fixes a plain token. -/
theorem plain_stripAll {c : Tok} (h : ∀ ch ∈ c, isPlainC ch = true) :
    stripAll c = c := by
  rw [stripAll_eq, plain_stripOnce h]

/-- getBaseClass returns none on a plain token. -/
theorem plain_getBase {c : Tok} (h : ∀ ch ∈ c, isPlainC ch = true) :
    getBaseClass c = none := by
  unfold getBaseClass
  rw [plain_stripBang h, plain_stripAll h]
  simp

/-! Evaluation helpers for the traversal loop (its equations restated so that
    concrete runs can be computed step by step), and membership plumbing. -/

/-- Membership gives a positive contains test. -/
theorem contains_of_mem {l : List Tok} {a : Tok} (h : a ∈ l) : l.contains a = true := by
  simp only [List.contains_iff_exists_mem_beq]
  exact ⟨a, h, by simp⟩

/-- An empty queue returns the accumulators. -/
theorem impLoop_nil (fs : FS) (visited parsed : List Tok) (st : ExtState) :
    impLoop fs [] visited parsed st = (parsed, st) := by
  rw [impLoop.eq_1]

/-- A visited head is skipped. -/
theorem impLoop_step_visited (fs : FS) (p : Tok) (rest visited parsed : List Tok)
    (st : ExtState) (hv : visited.contains p = true) :
    impLoop fs (p :: rest) visited parsed st = impLoop fs rest visited parsed st := by
  rw [impLoop.eq_2, if_pos hv]

/-- A missing file is skipped after marking it visited. -/
theorem impLoop_step_missing (fs : FS) (p : Tok) (rest visited parsed : List Tok)
    (st : ExtState) (hnv : visited.contains p = false) (hl : lookupFS fs p = none) :
    impLoop fs (p :: rest) visited parsed st =
      impLoop fs rest (p :: visited) parsed st := by
  rw [impLoop.eq_2, if_neg (by rw [hnv]; simp)]
  split
  · rfl
  · rename_i css2 heq
    rw [hl] at heq
    cases heq

/-- An unvisited readable head is parsed: its imports are enqueued, it is
marked visited and recorded as parsed, and its text is extracted. -/
theorem impLoop_step_new (fs : FS) (p : Tok) (rest visited parsed : List Tok)
    (st : ExtState) (css : Tok) (hnv : visited.contains p = false)
    (hl : lookupFS fs p = some css) :
    impLoop fs (p :: rest) visited parsed st =
      impLoop fs (rest ++ importTargets fs p css (p :: visited)) (p :: visited)
        (parsed ++ [p]) (processFile st css) := by
  rw [impLoop.eq_2, if_neg (by rw [hnv]; simp)]
  split
  · rename_i heq
    rw [hl] at heq
    cases heq
  · rename_i css2 heq
    rw [hl] at heq
    injection heq with heq
    subst heq
    rfl

/-- A one-file filesystem with no enqueued imports parses exactly the root. -/
theorem parse_single (p css : Tok) (hni : importTargets [(p, css)] p css [p] = []) :
    parseCSSImports [(p, css)] p = ([p], processFile initState css) := by
  unfold parseCSSImports
  rw [if_pos (by simp [lookupFS, List.lookup])]
  rw [impLoop_step_new [(p, css)] p [] [] [] initState css (by simp)
    (by simp [lookupFS, List.lookup])]
  rw [List.nil_append, hni, impLoop_nil, List.nil_append]

/-! Invariants of the traversal: every extracted color theme variable has its
    derived background utility in the custom set, and no file is parsed
    twice. -/

/-- Per-file preservation: extracting one file keeps the color-to-background
property, because generateColorUtilities adds the derived name unless it is
explicitly declared, in which case the explicit scan already added it. -/
theorem processFile_color {st : ExtState} {css : Tok}
    (hinv : ∀ sfx : Tok, (tok "color-" ++ sfx) ∈ st.themeVars →
      (tok "bg-" ++ sfx) ∈ st.custom) :
    ∀ sfx : Tok, (tok "color-" ++ sfx) ∈ (processFile st css).themeVars →
      (tok "bg-" ++ sfx) ∈ (processFile st css).custom := by
  intro sfx hmem
  unfold processFile at hmem ⊢
  simp only [List.mem_append] at hmem ⊢
  rcases hmem with hold | hnew
  · exact Or.inl (Or.inl (Or.inl (Or.inl (Or.inl (hinv sfx hold)))))
  · by_cases hex : (tok "bg-" ++ sfx) ∈ extractExplicitList css
    · exact Or.inl (Or.inl (Or.inl (Or.inl (Or.inr hex))))
    · refine Or.inl (Or.inl (Or.inr ?_))
      rw [List.mem_flatMap]
      refine ⟨tok "color-" ++ sfx, hnew, ?_⟩
      unfold genFromVar
      simp only [List.mem_append]
      refine Or.inl (Or.inl (Or.inl (Or.inl (Or.inl (Or.inl (Or.inl (Or.inl ?_)))))))
      unfold genColor
      rw [if_pos (litPre_iff_pre.mpr ⟨sfx, rfl⟩)]
      rw [List.mem_filter]
      constructor
      · have hdrop : (tok "color-" ++ sfx).drop 6 = sfx := by
          have h6 : (tok "color-").length = 6 := rfl
          rw [← h6, List.drop_left]
        rw [List.mem_map]
        refine ⟨tok "bg-", by decide, ?_⟩
        rw [hdrop]
      · simpa using hex

/-- The color-to-background property is an invariant of the whole loop. -/
theorem impLoop_color (fs : FS) (q v par : List Tok) (st : ExtState)
    (hinv : ∀ sfx : Tok, (tok "color-" ++ sfx) ∈ st.themeVars →
      (tok "bg-" ++ sfx) ∈ st.custom) :
    ∀ sfx : Tok, (tok "color-" ++ sfx) ∈ (impLoop fs q v par st).2.themeVars →
      (tok "bg-" ++ sfx) ∈ (impLoop fs q v par st).2.custom := by
  revert hinv
  induction q, v, par, st using impLoop.induct fs with
  | case1 v par st =>
    intro hinv
    rw [impLoop_nil]
    exact hinv
  | case2 p rest v par st h ih =>
    intro hinv
    rw [impLoop_step_visited fs p rest v par st h]
    exact ih hinv
  | case3 p rest v par st h hl ih =>
    intro hinv
    rw [impLoop_step_missing fs p rest v par st (by simpa using h) hl]
    exact ih hinv
  | case4 p rest v par st h css hl ih =>
    intro hinv
    rw [impLoop_step_new fs p rest v par st css (by simpa using h) hl]
    exact ih (processFile_color hinv)

/-- The parsed accumulator stays duplicate-free: a path is appended only when
it was unvisited, and parsed paths are always visited. -/
theorem impLoop_nodup (fs : FS) (q v par : List Tok) (st : ExtState)
    (hnd : par.Nodup) (hsub : ∀ x ∈ par, v.contains x = true) :
    ((impLoop fs q v par st).1).Nodup := by
  revert hnd hsub
  induction q, v, par, st using impLoop.induct fs with
  | case1 v par st =>
    intro hnd _
    rw [impLoop_nil]
    exact hnd
  | case2 p rest v par st h ih =>
    intro hnd hsub
    rw [impLoop_step_visited fs p rest v par st h]
    exact ih hnd hsub
  | case3 p rest v par st h hl ih =>
    intro hnd hsub
    rw [impLoop_step_missing fs p rest v par st (by simpa using h) hl]
    refine ih hnd (fun x hx => ?_)
    rw [List.contains_cons]
    have := hsub x hx
    rw [this]
    simp
  | case4 p rest v par st h css hl ih =>
    intro hnd hsub
    rw [impLoop_step_new fs p rest v par st css (by simpa using h) hl]
    have hpnot : p ∉ par := by
      intro hp
      exact h (hsub p hp)
    refine ih ?_ (fun x hx => ?_)
    · simp [List.nodup_append, hnd, hpnot]
    · rcases List.mem_append.mp hx with h1 | h2
      · rw [List.contains_cons, hsub x h1]
        simp
      · simp at h2
        subst h2
        rw [List.contains_cons]
        simp

/-! The claims. -/

/-- C1: for every session state and candidate token, when
allowArbitraryValues is set and the token, after stripping one leading
important marker, is an arbitrary-value form (contains a bracketed segment
and does not begin with one of the recognized bracketed-variant heads),
isValidClass returns true regardless of the contents of the vocabulary
sets. -/
theorem C1_arbitrary_value_accepted (sess : Session) (t : Tok)
    (hallow : sess.allowArbitraryValues = true)
    (harb : isArbitraryValue (stripBang t) = true) :
    isValidClass sess t = true := by
  unfold isValidClass
  rw [harb, hallow]
  rfl

theorem C1_arbitrary_value_accepted_witness :
    (⟨[], [], false, true⟩ : Session).allowArbitraryValues = true ∧
    isArbitraryValue (stripBang (tok "bg-[#ff0000]")) = true ∧
    isValidClass ⟨[], [], false, true⟩ (tok "bg-[#ff0000]") = true :=
  ⟨rfl, by decide, C1_arbitrary_value_accepted ⟨[], [], false, true⟩ (tok "bg-[#ff0000]")
    rfl (by decide)⟩

/-- C3: the rule's schema declares only cssFile, allowArbitraryValues and
debug with additionalProperties false, and create reads no customClasses
option, so for every configuration the session built from a missing CSS file
has an empty vocabulary and a listed class such as custom-class-1 is
reported as undefined — contradicting the README, which documents a
customClasses list that should be added to the vocabulary
unconditionally. -/
theorem C3_custom_classes_option_missing (o : RuleOptions) :
    isValidClass (buildSession [] (tok o.cssFile) o.allowArbitraryValues)
      (tok "custom-class-1") = false := by
  have hb : buildSession [] (tok o.cssFile) o.allowArbitraryValues =
      ⟨[], [], false, o.allowArbitraryValues⟩ := by
    unfold buildSession parseCSSImports lookupFS
    simp [List.lookup, initState]
  rw [hb]
  unfold isValidClass
  rw [show isArbitraryValue (stripBang (tok "custom-class-1")) = false from by decide]
  rw [show getBaseClass (tok "custom-class-1") = none from by decide]
  simp

/-- C4: a candidate of one of the overridable default-scale families whose
exact scale slot is redefined by the extracted theme variables, and which is
not otherwise in the vocabulary, is rejected by isValidClass even when the
base framework is imported: the structural fallback answer is suppressed. -/
theorem C4_theme_override_suppresses (sess : Session) (c : Tok)
    (hov : isOverridableUtility c = true)
    (hth : hasThemeOverride sess.foundThemeVariables c = true)
    (hvoc : sess.validClasses.contains c = false) :
    isValidClass sess c = false := by
  have hplain := overridable_plain hov
  have hsb : stripBang c = c := plain_stripBang hplain
  have harb : isArbitraryValue c = false := plain_not_arb hplain
  have hgb : getBaseClass c = none := plain_getBase hplain
  unfold isValidClass
  rw [hsb, harb, hvoc, hgb, hov, hth]
  simp

theorem C4_theme_override_suppresses_witness :
    isOverridableUtility (tok "text-xl") = true ∧
    hasThemeOverride [tok "font-size-xl"] (tok "text-xl") = true ∧
    isValidClass ⟨[], [tok "font-size-xl"], true, true⟩ (tok "text-xl") = false :=
  ⟨by decide, by decide,
    C4_theme_override_suppresses ⟨[], [tok "font-size-xl"], true, true⟩ (tok "text-xl")
      (by decide) (by decide) (by decide)⟩

/-- C6: with no base-framework import detected, a token that is not an
allowed arbitrary value is valid only through the vocabulary sets; with an
empty vocabulary it is classified invalid, whatever the structural table
would say. -/
theorem C6_structural_needs_import (sess : Session) (t : Tok)
    (himp : sess.hasTailwindImport = false)
    (hvoc : sess.validClasses = [])
    (harb : (isArbitraryValue (stripBang t) && sess.allowArbitraryValues) = false) :
    isValidClass sess t = false := by
  unfold isValidClass
  rw [harb, hvoc, himp]
  cases hgb : getBaseClass t with
  | none => simp
  | some b => simp

theorem C6_structural_needs_import_witness :
    (isArbitraryValue (stripBang (tok "flex")) &&
      (⟨[], [], false, true⟩ : Session).allowArbitraryValues) = false ∧
    isValidClass ⟨[], [], false, true⟩ (tok "flex") = false :=
  ⟨by decide, C6_structural_needs_import ⟨[], [], false, true⟩ (tok "flex") rfl rfl
    (by decide)⟩

/-- A token is either fixed by the important-marker strip or shortened by
exactly one character. -/
theorem stripBang_cases (t : Tok) :
    stripBang t = t ∨ (stripBang t).length + 1 = t.length := by
  cases t with
  | nil => exact Or.inl rfl
  | cons a r =>
    by_cases ha : a = '!'
    · subst ha
      right
      simp [stripBang]
    · left
      rw [stripBang.eq_def]
      split
      next x heq =>
        injection heq with h1 h2
        exact absurd h1 ha
      next => rfl

/-- C7 counterexample: the claim says getBaseClass returns null exactly when
no recognized variant prefix is present, but on the token bang-flex, which no
prefix pattern matches, it still returns the base flex, because the
important-marker strip alone already made the result differ from the
original token. -/
theorem C7_counterexample :
    getBaseClass (tok "!flex") = some (tok "flex") ∧
    stripVariantOnce (tok "!flex") = none := by
  exact ⟨by decide, by decide⟩

/-- C7 amended: getBaseClass returns none exactly when the token neither
starts with the important marker nor is touched by any recognized prefix; a
non-null result is the token after stripping the optional marker and then
prefixes to a fixed point. -/
theorem C7_amended (t : Tok) :
    (getBaseClass t = none ↔ (stripBang t = t ∧ stripVariantOnce t = none)) ∧
    (∀ b, getBaseClass t = some b → b = stripAll (stripBang t)) := by
  constructor
  · constructor
    · intro hn
      unfold getBaseClass at hn
      by_cases hbeq : (stripAll (stripBang t) == t) = true
      · have hbt : stripAll (stripBang t) = t := by simpa using hbeq
        rcases stripBang_cases t with hb | hb
        · refine ⟨hb, ?_⟩
          rw [hb] at hbt
          cases hsv : stripVariantOnce t with
          | none => rfl
          | some r =>
            exfalso
            have hlt := stripVariantOnce_length hsv
            have heq2 : stripAll t = stripAll r := by rw [stripAll_eq, hsv]
            have hlen := stripAll_length r
            rw [heq2] at hbt
            have hle : t.length ≤ r.length := by rw [← hbt]; exact hlen
            omega
        · exfalso
          have h1 := stripAll_length (stripBang t)
          have h2 : (stripAll (stripBang t)).length = t.length := by rw [hbt]
          omega
      · rw [if_neg hbeq] at hn
        cases hn
    · rintro ⟨hb, hsv⟩
      unfold getBaseClass
      rw [hb, stripAll_eq, hsv]
      simp
  · intro b hb
    unfold getBaseClass at hb
    by_cases hbeq : (stripAll (stripBang t) == t) = true
    · rw [if_pos hbeq] at hb
      cases hb
    · rw [if_neg hbeq] at hb
      injection hb with hb
      exact hb.symm

theorem C7_amended_witness : tok "flex" = stripAll (stripBang (tok "!flex")) :=
  (C7_amended (tok "!flex")).2 (tok "flex") (by decide)

/-- C8 counterexample: with the base framework imported and an empty
vocabulary, the prefixed token dark-hover-bg-primary is accepted through the
variant-head pattern of the structural table while its base bg-primary is
rejected, so the two do not validate identically in every session. -/
theorem C8_counterexample :
    isValidClass ⟨[], [], true, true⟩ (tok "dark:hover:bg-primary") = true ∧
    isValidClass ⟨[], [], true, true⟩ (tok "bg-primary") = false := by
  exact ⟨by decide, by decide⟩

/-- C8 amended: getBaseClass strips both chained prefixes of
dark-hover-bg-primary down to bg-primary, and in every session that has no
base-framework import and does not hold the full prefixed token verbatim in
its vocabulary, the prefixed token validates identically to its base. -/
theorem C8_amended (sess : Session)
    (himp : sess.hasTailwindImport = false)
    (hvoc : sess.validClasses.contains (tok "dark:hover:bg-primary") = false) :
    getBaseClass (tok "dark:hover:bg-primary") = some (tok "bg-primary") ∧
    isValidClass sess (tok "dark:hover:bg-primary") =
      isValidClass sess (tok "bg-primary") := by
  refine ⟨by decide, ?_⟩
  unfold isValidClass
  rw [himp]
  rw [show stripBang (tok "dark:hover:bg-primary") = tok "dark:hover:bg-primary" from rfl]
  rw [show stripBang (tok "bg-primary") = tok "bg-primary" from rfl]
  rw [show isArbitraryValue (tok "dark:hover:bg-primary") = false from by decide]
  rw [show isArbitraryValue (tok "bg-primary") = false from by decide]
  rw [show getBaseClass (tok "dark:hover:bg-primary") = some (tok "bg-primary") from by decide]
  rw [show getBaseClass (tok "bg-primary") = none from by decide]
  rw [hvoc]
  cases hc : sess.validClasses.contains (tok "bg-primary") with
  | false =>
    simp only [hc]
    simp
    exact (by simpa using hc : ¬ tok "bg-primary" ∈ sess.validClasses)
  | true =>
    simp only [hc]
    simp
    exact (by simpa using hc : tok "bg-primary" ∈ sess.validClasses)

theorem C8_amended_witness :
    getBaseClass (tok "dark:hover:bg-primary") = some (tok "bg-primary") ∧
    isValidClass ⟨[], [], false, true⟩ (tok "dark:hover:bg-primary") =
      isValidClass ⟨[], [], false, true⟩ (tok "bg-primary") :=
  C8_amended ⟨[], [], false, true⟩ rfl (by decide)

/-! Concrete fixtures of the remaining claims. -/

/-- A stylesheet declaring one color theme variable. -/
def themeCss : Tok := tok "@theme \x7b --color-primary: #123; \x7d"

/-- A one-file filesystem holding that stylesheet. -/
def themeFS : FS := [(tok "/globals.css", themeCss)]

/-- Two stylesheets importing each other. -/
def aCss : Tok := tok "@import \"./b.css\";"

def bCss : Tok := tok "@import \"./a.css\";"

def cycleFS : FS := [(tok "/a.css", aCss), (tok "/b.css", bCss)]

/-- A stylesheet declaring one escaped selector. -/
def escCss : Tok := tok ".sm\\:bg-primary\\/50 \x7b \x7d"

def escFS : FS := [(tok "/globals.css", escCss)]

/-- C2: every color theme variable extracted into the session yields its
derived background utility in the vocabulary, so the derived candidate is
accepted whatever the import flag says; and for the concrete stylesheet
declaring only color-primary, bg-primary is accepted while the non-derived
bg-secondary is rejected. -/
theorem C2_color_variable_generates_bg :
    (∀ (fs : FS) (root sfx : Tok),
      (tok "color-" ++ sfx) ∈ (buildSession fs root true).foundThemeVariables →
      isValidClass (buildSession fs root true) (tok "bg-" ++ sfx) = true) ∧
    isValidClass (buildSession themeFS (tok "/globals.css") true) (tok "bg-primary") = true ∧
    isValidClass (buildSession themeFS (tok "/globals.css") true) (tok "bg-secondary") = false := by
  have hsingle : parseCSSImports themeFS (tok "/globals.css") =
      ([tok "/globals.css"], processFile initState themeCss) :=
    parse_single (tok "/globals.css") themeCss (by decide)
  refine ⟨?_, ?_, ?_⟩
  · intro fs root sfx hmem
    have hvoc : (tok "bg-" ++ sfx) ∈ (buildSession fs root true).validClasses := by
      unfold buildSession at hmem ⊢
      unfold parseCSSImports at hmem ⊢
      by_cases hroot : (lookupFS fs root).isSome
      · rw [if_pos hroot] at hmem ⊢
        refine impLoop_color fs [root] [] [] initState ?_ sfx hmem
        intro sfx2 h2
        simp [initState] at h2
      · rw [if_neg hroot] at hmem
        simp [initState] at hmem
    unfold isValidClass
    by_cases harb : (isArbitraryValue (stripBang (tok "bg-" ++ sfx)) &&
        (buildSession fs root true).allowArbitraryValues) = true
    · rw [harb]
      rfl
    · rw [show stripBang (tok "bg-" ++ sfx) = tok "bg-" ++ sfx from rfl] at harb ⊢
      rw [contains_of_mem hvoc]
      simp at harb
      simp [harb]
  · unfold buildSession
    rw [hsingle]
    decide
  · unfold buildSession
    rw [hsingle]
    decide

/-- C5: the import traversal terminates (it is defined by well-founded
recursion on the pair of the unvisited-domain count and the queue length),
every reachable file is parsed at most once in every run, and on the
two-file import cycle each file is parsed exactly once. -/
theorem C5_import_cycle_parsed_once :
    (∀ (fs : FS) (root : Tok), ((parseCSSImports fs root).1).Nodup) ∧
    (parseCSSImports cycleFS (tok "/a.css")).1 = [tok "/a.css", tok "/b.css"] := by
  constructor
  · intro fs root
    unfold parseCSSImports
    by_cases hroot : (lookupFS fs root).isSome
    · rw [if_pos hroot]
      exact impLoop_nodup fs [root] [] [] initState (by simp) (by simp)
    · rw [if_neg hroot]
      simp
  · have e0 : parseCSSImports cycleFS (tok "/a.css") =
        impLoop cycleFS [tok "/a.css"] [] [] initState := by
      unfold parseCSSImports
      rw [if_pos (by decide)]
    rw [e0]
    rw [impLoop_step_new cycleFS (tok "/a.css") [] [] [] initState aCss (by decide)
      (by decide)]
    rw [show ([] : List Tok) ++ importTargets cycleFS (tok "/a.css") aCss [tok "/a.css"] =
      [tok "/b.css"] from by decide]
    rw [show processFile initState aCss = initState from by decide]
    rw [show ([] : List Tok) ++ [tok "/a.css"] = [tok "/a.css"] from rfl]
    rw [impLoop_step_new cycleFS (tok "/b.css") [] [tok "/a.css"] [tok "/a.css"]
      initState bCss (by decide) (by decide)]
    rw [show ([] : List Tok) ++ importTargets cycleFS (tok "/b.css") bCss
      [tok "/b.css", tok "/a.css"] = [] from by decide]
    rw [show processFile initState bCss = initState from by decide]
    rw [impLoop_nil]
    rfl

/-- C9: the explicit-selector extraction on the stylesheet holding the
escaped selector yields exactly the unescaped class name, that name is the
whole vocabulary of the session built from the stylesheet, and the
unescaping chain translates each of the nine escape pairs back to its plain
character. -/
theorem C9_escaped_selector_roundtrip :
    extractExplicitList escCss = [tok "sm:bg-primary/50"] ∧
    (buildSession escFS (tok "/globals.css") true).validClasses =
      [tok "sm:bg-primary/50"] ∧
    (unescapeCls (tok "\\:") = tok ":" ∧ unescapeCls (tok "\\/") = tok "/" ∧
     unescapeCls (tok "\\.") = tok "." ∧ unescapeCls (tok "\\[") = tok "[" ∧
     unescapeCls (tok "\\]") = tok "]" ∧ unescapeCls (tok "\\(") = tok "(" ∧
     unescapeCls (tok "\\)") = tok ")" ∧ unescapeCls (tok "\\-") = tok "-" ∧
     unescapeCls (tok "\\\\") = tok "\\") := by
  refine ⟨by decide, ?_, by decide⟩
  have hsingle : parseCSSImports escFS (tok "/globals.css") =
      ([tok "/globals.css"], processFile initState escCss) :=
    parse_single (tok "/globals.css") escCss (by decide)
  unfold buildSession
  rw [hsingle]
  decide

/-- Shape of isValidClass when a base class is found. -/
theorem isValidClass_some {sess : Session} {c b : Tok} (hgb : getBaseClass c = some b) :
    isValidClass sess c =
      (if isArbitraryValue (stripBang c) && sess.allowArbitraryValues then true
       else if sess.validClasses.contains (stripBang c) then true
       else if sess.validClasses.contains (stripBang b) then true
       else if sess.hasTailwindImport && isTailwindUtility (stripBang b) then
         !isOverridableUtility (stripBang b) ||
           !hasThemeOverride sess.foundThemeVariables (stripBang b)
       else if sess.hasTailwindImport && isTailwindUtility c then
         !isOverridableUtility (stripBang c) ||
           !hasThemeOverride sess.foundThemeVariables (stripBang c)
       else false) := by
  unfold isValidClass
  rw [hgb]

/-- C10 counterexample: the implicit claim that every hover-prefixed token is
accepted when the framework is imported fails as soon as the theme redefines
the scale slot of the stripped base: hover-text-xl is rejected when
font-size-xl is an extracted theme variable. -/
theorem C10_counterexample :
    isValidClass ⟨[], [tok "font-size-xl"], true, true⟩ (tok "hover:text-xl") = false := by
  decide

/-- C10 amended: when the base framework is imported and the session has no
extracted theme variables, every token beginning with the hover variant
prefix is accepted by isValidClass, whatever the remainder and the
vocabulary contents are. -/
theorem C10_amended (sess : Session) (s : Tok)
    (himp : sess.hasTailwindImport = true)
    (htv : sess.foundThemeVariables = []) :
    isValidClass sess (tok "hover:" ++ s) = true := by
  have hsb : stripBang (tok "hover:" ++ s) = tok "hover:" ++ s := rfl
  have hsv : stripVariantOnce (tok "hover:" ++ s) = some s := rfl
  have htw : isTailwindUtility (tok "hover:" ++ s) = true := rfl
  have hSA : stripAll (tok "hover:" ++ s) = stripAll s := by
    rw [stripAll_eq, hsv]
  have hlen : (stripAll s).length < (tok "hover:" ++ s).length := by
    have h1 := stripAll_length s
    rw [List.length_append]
    have h6 : (tok "hover:").length = 6 := rfl
    omega
  have hne : (stripAll s == tok "hover:" ++ s) = false := by
    rw [beq_eq_false_iff_ne]
    intro he
    rw [he] at hlen
    omega
  have hgb : getBaseClass (tok "hover:" ++ s) = some (stripAll s) := by
    unfold getBaseClass
    rw [hsb, hSA, hne]
    simp
  rw [isValidClass_some hgb]
  rw [hsb, himp, htv]
  split_ifs with h1 h2 h3 h4 h5
  · rfl
  · rfl
  · rfl
  · rw [hasThemeOverride_nil]
    simp
  · rw [hasThemeOverride_nil]
    simp
  · rw [htw] at h5
    simp at h5

theorem C10_amended_witness :
    isValidClass ⟨[], [], true, true⟩ (tok "hover:" ++ tok "not-a-real-class-xyz") = true :=
  C10_amended ⟨[], [], true, true⟩ (tok "not-a-real-class-xyz") rfl rfl

theorem C2_color_variable_generates_bg_witness :
    isValidClass (buildSession themeFS (tok "/globals.css") true)
      (tok "bg-" ++ tok "primary") = true := by
  refine C2_color_variable_generates_bg.1 themeFS (tok "/globals.css") (tok "primary") ?_
  have hsingle : parseCSSImports themeFS (tok "/globals.css") =
      ([tok "/globals.css"], processFile initState themeCss) :=
    parse_single (tok "/globals.css") themeCss (by decide)
  unfold buildSession
  rw [hsingle]
  decide
